import Mathlib

/-!
# The validation engine of the `schema` package

A shallow embedding of `schema/validator.go`: the semantic check `validateConfig`
for the model-configuration media type, the schema stage `validateSchema`, and the
facade `Validate` that dispatches between them.

Code that lives outside the package (the JSON decoder, the JSON-schema engine, the
embedded file system) is taken as a parameter, so every theorem holds for every
behaviour of those collaborators.  Go's `error` results are `Option GoError`, with
`none` standing for `nil`.
-/

namespace Schema

/-! ## Errors and formatting -/

/-- A byte slice (`[]byte`); every element is one byte value. -/
abbrev Bytes := List Nat

/-- A Go `error` value.  `new msg` is an error without a cause (`errors.New`,
`fmt.Errorf` without `%w`, or an error produced by a library).  `wrap pre cause` is
what `fmt.Errorf(pre + "%w", cause)` returns: every `%w` in `validator.go` is the
last verb of its format string, so the text before it is all that has to be kept. -/
inductive GoError where
  | new (msg : String)
  | wrap (pre : String) (cause : GoError)
  deriving DecidableEq, Repr

/-- The method `Error()`: the message of an error. -/
def GoError.Error : GoError → String
  | .new msg => msg
  | .wrap pre cause => pre ++ cause.Error

/-- The function `errors.Unwrap`: the wrapped cause, if there is one. -/
def GoError.Unwrap : GoError → Option GoError
  | .new _ => none
  | .wrap _ cause => some cause

/-- The digit table `lowerhex` of `strconv`. -/
def lowerhex : List Char := "0123456789abcdef".toList

/-- One hexadecimal digit, `lowerhex[n]`. -/
def hexDigit (n : Nat) : Char := lowerhex.getD n '0'

/-- The function `strconv.IsPrint`.  Runes up to `0xFF` are decided by the fast path
of the Go function; the Unicode tables it consults above `0xFF` are the parameter
`table`. -/
def IsPrint (table : Char → Bool) (r : Char) : Bool :=
  if r.toNat ≤ 0xFF then
    if 0x20 ≤ r.toNat ∧ r.toNat ≤ 0x7E then true
    else if 0xA1 ≤ r.toNat ∧ r.toNat ≤ 0xFF then r.toNat != 0xAD
    else false
  else table r

/-- The function `appendEscapedRune` of `strconv`, for the double quote and without
the ASCII-only and graphic-only modes: the text that `%q` emits for one rune.  A
`Char` is a valid Unicode scalar value, so the branch for invalid runes is absent. -/
def appendEscapedRune (table : Char → Bool) (r : Char) : List Char :=
  if r = '"' ∨ r = '\\' then ['\\', r]
  else if IsPrint table r then [r]
  else if r.toNat = 0x07 then ['\\', 'a']
  else if r.toNat = 0x08 then ['\\', 'b']
  else if r.toNat = 0x0C then ['\\', 'f']
  else if r.toNat = 0x0A then ['\\', 'n']
  else if r.toNat = 0x0D then ['\\', 'r']
  else if r.toNat = 0x09 then ['\\', 't']
  else if r.toNat = 0x0B then ['\\', 'v']
  else if r.toNat < 0x20 ∨ r.toNat = 0x7F then
    ['\\', 'x', hexDigit (r.toNat / 16), hexDigit (r.toNat % 16)]
  else if r.toNat < 0x10000 then
    ['\\', 'u'] ++ [12, 8, 4, 0].map (fun s => hexDigit (r.toNat / 2 ^ s % 16))
  else
    ['\\', 'U'] ++ [28, 24, 20, 16, 12, 8, 4, 0].map (fun s => hexDigit (r.toNat / 2 ^ s % 16))

/-- The function `strconv.Quote`, which formats the operand of the verb `%q`: the
string between double quotes, every rune escaped by `appendEscapedRune`.  Strings
here are sequences of valid runes, as are the strings `json.Unmarshal` produces. -/
def Quote (table : Char → Bool) (s : String) : String :=
  String.mk ('"' :: (s.toList.flatMap (appendEscapedRune table) ++ ['"']))

/-! ## The typed model configuration -/

/-- Modelled from the spec: the type `v1.ModelDescriptor`, declared outside this
package; the fields the semantic rules read are `name` and `family`. -/
structure ModelDescriptor where
  Name : String
  Family : String
  deriving DecidableEq, Repr

/-- Modelled from the spec: the type `v1.ModelFS`; its fields are `type` and
`diffIds` (a list of digests, which are strings). -/
structure ModelFS where
  Type' : String
  DiffIDs : List String
  deriving DecidableEq, Repr

/-- Modelled from the spec: the type `v1.ModelCapabilities`; the fields read are the
two lists of modality strings. -/
structure ModelCapabilities where
  InputTypes : List String
  OutputTypes : List String
  deriving DecidableEq, Repr

/-- Modelled from the spec: the type `v1.ModelConfig`.  `Capabilities` is a pointer
in Go; `none` is the nil pointer (no capabilities object). -/
structure ModelConfig where
  Architecture : String
  Capabilities : Option ModelCapabilities
  deriving DecidableEq, Repr

/-- Modelled from the spec: the type `v1.Model`, the target of deserialization. -/
structure Model where
  Descriptor : ModelDescriptor
  ModelFS : ModelFS
  Config : ModelConfig
  deriving DecidableEq, Repr

/-- Modelled from the spec: the architecture constants `v1.ArchitectureTransformer`,
... `v1.ArchitectureGAN`, the keys of the map `validArchitectures`. -/
def architectureConstants : List String :=
  ["Transformer", "CNN", "RNN", "LSTM", "GRU", "Diffusion", "VAE", "GAN"]

/-- Modelled from the spec: the modality constants `v1.TextModality`, ...
`v1.OtherModality`, the keys of the map `validModalities`. -/
def modalityConstants : List String :=
  ["text", "image", "audio", "video", "embedding", "other"]

/-- The map `validArchitectures`, indexed: a key that is absent reads as `false`. -/
def validArchitectures (a : String) : Bool := architectureConstants.contains a

/-- The map `validModalities`, indexed: a key that is absent reads as `false`. -/
def validModalities (m : String) : Bool := modalityConstants.contains m

/-- The collaborators of `validateConfig` from the Go standard library:
`json.Unmarshal` into a `v1.Model`, and the Unicode tables behind `%q`. -/
structure Stdlib where
  Unmarshal : Bytes → Except GoError Model
  printTable : Char → Bool

/-! ## The semantic check of the model configuration -/

/-- The block `if mc.Config.Architecture != ""` of `validateConfig`: the value is
looked up in `validArchitectures`, and the branch for an unknown value is empty. -/
def checkArchitecture (architecture : String) : Option GoError :=
  if architecture ≠ "" then
    if !validArchitectures architecture then
      none
    else none
  else none

/-- The loop `for _, m := range ...InputTypes` of `validateConfig`: the first
modality outside `validModalities` ends the function with an error. -/
def checkInputTypes (lib : Stdlib) : List String → Option GoError
  | [] => none
  | m :: rest =>
    if !validModalities m then
      some (.new ("invalid input modality: " ++ Quote lib.printTable m))
    else checkInputTypes lib rest

/-- The loop `for _, m := range ...OutputTypes` of `validateConfig`. -/
def checkOutputTypes (lib : Stdlib) : List String → Option GoError
  | [] => none
  | m :: rest =>
    if !validModalities m then
      some (.new ("invalid output modality: " ++ Quote lib.printTable m))
    else checkOutputTypes lib rest

/-- The function `validateConfig`: the semantic rules of a model configuration. -/
def validateConfig (lib : Stdlib) (buf : Bytes) : Option GoError :=
  match lib.Unmarshal buf with
  | .error err => some (.wrap "config format mismatch: " err)
  | .ok mc =>
    if mc.Descriptor.Name = "" ∧ mc.Descriptor.Family = "" then
      some (.new "model descriptor must have either name or family")
    else if mc.ModelFS.Type' ≠ "layers" then
      some (.new ("modelfs.type must be 'layers', got " ++ Quote lib.printTable mc.ModelFS.Type'))
    else if mc.ModelFS.DiffIDs.length = 0 then
      some (.new "modelfs.diffIds must not be empty")
    else
      match checkArchitecture mc.Config.Architecture with
      | some err => some err
      | none =>
        match mc.Config.Capabilities with
        | some caps =>
          match checkInputTypes lib caps.InputTypes with
          | some err => some err
          | none =>
            match checkOutputTypes lib caps.OutputTypes with
            | some err => some err
            | none => none
        | none => none

/-! ## Streams, the embedded store and the schema engine -/

/-- An `io.Reader`, given by what reading it to its end delivers: the bytes, and the
error that ends the stream (`none` when the stream ends with `io.EOF`). -/
structure Reader where
  data : Bytes
  err : Option GoError
  deriving DecidableEq, Repr

/-- The function `io.ReadAll`: the bytes read and the error, `nil` at end of file. -/
def ReadAll (src : Reader) : Bytes × Option GoError := (src.data, src.err)

/-- The function `bytes.NewReader`: a reader at the start of `buf`. -/
def NewReader (buf : Bytes) : Reader := ⟨buf, none⟩

/-- The media type string wrapped by the Go type `Validator`. -/
abbrev Validator := String

/-- The Go type `validateFunc`, `func([]byte) error`. -/
abbrev validateFunc := Bytes → Option GoError

/-- An entry of a directory listing (`fs.DirEntry`). -/
structure DirEntry where
  Name : String
  IsDir : Bool
  deriving DecidableEq, Repr

/-- The embedded file system `specFS`: the listing of its root, and the content of a
file given its name. -/
structure SpecFS where
  ReadDir : Except GoError (List DirEntry)
  ReadFile : String → Except GoError Bytes

/-- Everything `Validate` reads besides its arguments.  The three tables are the
package variables `validateByMediaType`, `specs` and `specURLs` (a Go map may lack
a key, the outer `none`; a registered function may be `nil`, the inner `none`);
`specFS` is the embedded store.  The rest is the JSON-schema engine, over a compiler state
`σ`, compiled schemas `S` and decoded JSON values `J`, and the JSON decoder. -/
structure Env (σ S J : Type) where
  validateByMediaType : Validator → Option (Option validateFunc)
  specs : Validator → Option String
  specURLs : String → Option (List String)
  specFS : SpecFS
  NewCompiler : σ
  AddResource : σ → String → Reader → Except GoError σ
  Compile : σ → String → Except GoError S
  SchemaValidate : S → J → Option GoError
  Decode : Reader → Except GoError J

/-- Indexing the map `specURLs`: a missing key reads as the nil slice. -/
def specURLsAt {σ S J : Type} (env : Env σ S J) (name : String) : List String :=
  (env.specURLs name).getD []

/-- The loop `for _, specURL := range specURLs[file.Name()]` of `validateSchema`:
the file is registered again under each of its aliases. -/
def addAliases {σ S J : Type} (env : Env σ S J) (name : String) (specBuf : Bytes) :
    σ → List String → Except GoError σ
  | c, [] => .ok c
  | c, specURL :: rest =>
    match env.AddResource c specURL (NewReader specBuf) with
    | .error err =>
      .error (.wrap ("failed to add spec file " ++ name ++ " as url " ++ specURL ++ ": ") err)
    | .ok c1 => addAliases env name specBuf c1 rest

/-- The body of the loop `for _, file := range dir` of `validateSchema`. -/
def loadSpecFile {σ S J : Type} (env : Env σ S J) (c : σ) (file : DirEntry) :
    Except GoError σ :=
  if file.IsDir then .ok c
  else
    match env.specFS.ReadFile file.Name with
    | .error err => .error (.wrap ("could not read spec file " ++ file.Name ++ ": ") err)
    | .ok specBuf =>
      match env.AddResource c file.Name (NewReader specBuf) with
      | .error err => .error (.wrap ("failed to add spec file " ++ file.Name ++ ": ") err)
      | .ok c1 =>
        if (specURLsAt env file.Name).length = 0 then
          .error (.new ("spec file has no aliases: " ++ file.Name))
        else addAliases env file.Name specBuf c1 (specURLsAt env file.Name)

/-- The loop `for _, file := range dir` of `validateSchema`: the first error ends
the function, otherwise the compiler holds every resource. -/
def loadSpecFiles {σ S J : Type} (env : Env σ S J) : σ → List DirEntry → Except GoError σ
  | c, [] => .ok c
  | c, file :: rest =>
    match loadSpecFile env c file with
    | .error err => .error err
    | .ok c1 => loadSpecFiles env c1 rest

/-- The method `Validator.validateSchema`. -/
def validateSchema {σ S J : Type} (env : Env σ S J) (v : Validator) (src : Reader) :
    Option GoError :=
  match env.specs v with
  | none => some (.new ("no validator available for " ++ v))
  | some root =>
    match env.specFS.ReadDir with
    | .error err => some (.wrap "spec embedded directory could not be loaded: " err)
    | .ok dir =>
      match loadSpecFiles env env.NewCompiler dir with
      | .error err => some err
      | .ok c =>
        match env.Compile c root with
        | .error err => some (.wrap ("failed to compile schema " ++ v ++ ": ") err)
        | .ok schema =>
          match env.Decode src with
          | .error err => some (.wrap "unable to parse json to validate: " err)
          | .ok input =>
            match env.SchemaValidate schema input with
            | some err => some (.wrap "validation failed: " err)
            | none => none

/-- The method `Validator.Validate`. -/
def Validate {σ S J : Type} (env : Env σ S J) (v : Validator) (src : Reader) :
    Option GoError :=
  match env.validateByMediaType v with
  | some fn =>
    match fn with
    | none => some (.new ("internal error: mapValidate is nil for " ++ v))
    | some fn =>
      match ReadAll src with
      | (_, some err) => some (.wrap "failed to read input: " err)
      | (buf, none) =>
        match fn buf with
        | some err => some err
        | none => validateSchema env v (NewReader buf)
  | none => validateSchema env v src

/-! ## The package state, passed explicitly -/

/-- The state of the package that a call of `Validate` could write to: the three
package-level tables `validateByMediaType`, `specs` and `specURLs`, and the embedded
store `specFS`.  A registered check is a function of its buffer, as `validateConfig`
is. -/
structure Globals where
  validateByMediaType : Validator → Option (Option validateFunc)
  specs : Validator → Option String
  specURLs : String → Option (List String)
  specFS : SpecFS

/-- The library code that `Validate` calls: the JSON-schema engine and the JSON
decoder.  It lies outside the package and has no access to the package variables,
which are not exported. -/
structure Engine (σ S J : Type) where
  NewCompiler : σ
  AddResource : σ → String → Reader → Except GoError σ
  Compile : σ → String → Except GoError S
  SchemaValidate : S → J → Option GoError
  Decode : Reader → Except GoError J

/-- The environment made of a package state and the library code. -/
def envOf {σ S J : Type} (g : Globals) (eng : Engine σ S J) : Env σ S J :=
  ⟨g.validateByMediaType, g.specs, g.specURLs, g.specFS, eng.NewCompiler, eng.AddResource,
    eng.Compile, eng.SchemaValidate, eng.Decode⟩

/-- The package state held by an environment. -/
def Env.globals {σ S J : Type} (env : Env σ S J) : Globals :=
  ⟨env.validateByMediaType, env.specs, env.specURLs, env.specFS⟩

/-- The library code held by an environment. -/
def Env.engine {σ S J : Type} (env : Env σ S J) : Engine σ S J :=
  ⟨env.NewCompiler, env.AddResource, env.Compile, env.SchemaValidate, env.Decode⟩

/-- The body of the loop `for _, file := range dir` of `validateSchema`, with the
package state passed explicitly: the state `g` in which the body starts, and with
the result the state in which it ends.  The body reads `specFS` once and `specURLs`
twice (`len(specURLs[...])` and `range specURLs[...]`) and assigns to neither; the
calls `c.AddResource` in between act on the compiler. -/
def loadSpecFileSt {σ S J : Type} (eng : Engine σ S J) (c : σ) (file : DirEntry)
    (g : Globals) : Except GoError σ × Globals :=
  if file.IsDir then (.ok c, g)
  else
    match g.specFS.ReadFile file.Name with
    | .error err => (.error (.wrap ("could not read spec file " ++ file.Name ++ ": ") err), g)
    | .ok specBuf =>
      match eng.AddResource c file.Name (NewReader specBuf) with
      | .error err => (.error (.wrap ("failed to add spec file " ++ file.Name ++ ": ") err), g)
      | .ok c1 =>
        if ((g.specURLs file.Name).getD []).length = 0 then
          (.error (.new ("spec file has no aliases: " ++ file.Name)), g)
        else
          (addAliases (envOf g eng) file.Name specBuf c1 ((g.specURLs file.Name).getD []), g)

/-- The loop `for _, file := range dir` of `validateSchema`, with the package state
passed explicitly: every iteration starts in the state the previous one left. -/
def loadSpecFilesSt {σ S J : Type} (eng : Engine σ S J) :
    σ → List DirEntry → Globals → Except GoError σ × Globals
  | c, [], g => (.ok c, g)
  | c, file :: rest, g =>
    match loadSpecFileSt eng c file g with
    | (.error err, g1) => (.error err, g1)
    | (.ok c1, g1) => loadSpecFilesSt eng c1 rest g1

/-- The method `Validator.validateSchema`, with the package state passed explicitly.
The table `specs` is read twice, as in the code: for the guard `_, ok := specs[v]`
in the starting state, and for `c.Compile(specs[v])` in the state the loading loop
left (a missing key reads as the empty string). -/
def validateSchemaSt {σ S J : Type} (eng : Engine σ S J) (v : Validator) (src : Reader)
    (g : Globals) : Option GoError × Globals :=
  match g.specs v with
  | none => (some (.new ("no validator available for " ++ v)), g)
  | some _ =>
    match g.specFS.ReadDir with
    | .error err => (some (.wrap "spec embedded directory could not be loaded: " err), g)
    | .ok dir =>
      match loadSpecFilesSt eng eng.NewCompiler dir g with
      | (.error err, g1) => (some err, g1)
      | (.ok c, g1) =>
        match eng.Compile c ((g1.specs v).getD "") with
        | .error err => (some (.wrap ("failed to compile schema " ++ v ++ ": ") err), g1)
        | .ok schema =>
          match eng.Decode src with
          | .error err => (some (.wrap "unable to parse json to validate: " err), g1)
          | .ok input =>
            match eng.SchemaValidate schema input with
            | some err => (some (.wrap "validation failed: " err), g1)
            | none => (none, g1)

/-- The method `Validator.Validate`, with the package state passed explicitly. -/
def ValidateSt {σ S J : Type} (eng : Engine σ S J) (v : Validator) (src : Reader)
    (g : Globals) : Option GoError × Globals :=
  match g.validateByMediaType v with
  | some fn =>
    match fn with
    | none => (some (.new ("internal error: mapValidate is nil for " ++ v)), g)
    | some fn =>
      match ReadAll src with
      | (_, some err) => (some (.wrap "failed to read input: " err), g)
      | (buf, none) =>
        match fn buf with
        | some err => (some err, g)
        | none => validateSchemaSt eng v (NewReader buf) g
  | none => validateSchemaSt eng v src g

/-- Two calls of `Validate` in succession on the same bytes, each from a new reader:
the second call starts in the package state the first one left.  The value is the
two results and the final state. -/
def ValidateTwice {σ S J : Type} (eng : Engine σ S J) (v : Validator) (b : Bytes)
    (g : Globals) : (Option GoError × Option GoError) × Globals :=
  match ValidateSt eng v (NewReader b) g with
  | (first, g1) =>
    match ValidateSt eng v (NewReader b) g1 with
    | (second, g2) => ((first, second), g2)

/-! ## Vocabulary of the statements -/

/-- The message `msg` begins with the text `p`. -/
def BeginsWith (p msg : String) : Prop := p.data <+: msg.data

instance (p msg : String) : Decidable (BeginsWith p msg) :=
  inferInstanceAs (Decidable (p.data <+: msg.data))

/-- The literal text that opens each format string of `validator.go`, in the order
of the code: `Validate`, `validateConfig`, `validateSchema`. -/
def errorPrefixes : List String :=
  ["internal error: mapValidate is nil for ", "failed to read input: ",
    "config format mismatch: ", "model descriptor must have either name or family",
    "modelfs.type must be 'layers', got ", "modelfs.diffIds must not be empty",
    "invalid input modality: ", "invalid output modality: ",
    "no validator available for ", "spec embedded directory could not be loaded: ",
    "could not read spec file ", "failed to add spec file ", "spec file has no aliases: ",
    "failed to compile schema ", "unable to parse json to validate: ",
    "validation failed: "]

/-- The texts that open the messages of `validateConfig`. -/
def configPrefixes : List String :=
  ["config format mismatch: ", "model descriptor must have either name or family",
    "modelfs.type must be 'layers', got ", "modelfs.diffIds must not be empty",
    "invalid input modality: ", "invalid output modality: "]

/-- The texts that open the messages of `validateSchema`. -/
def schemaPrefixes : List String :=
  ["no validator available for ", "spec embedded directory could not be loaded: ",
    "could not read spec file ", "failed to add spec file ", "spec file has no aliases: ",
    "failed to compile schema ", "unable to parse json to validate: ",
    "validation failed: "]

/-- The registrations the spec asks for, in its words: for each entry of the listing
that is not a directory, in listing order, the document under its own file name,
then the same document under every alias URL in the order of the alias table. -/
def expectedResources {σ S J : Type} (env : Env σ S J) (dir : List DirEntry) :
    List (String × Bytes) :=
  (dir.filter (fun file => !file.IsDir)).flatMap (fun file =>
    match env.specFS.ReadFile file.Name with
    | .ok specBuf =>
      (file.Name, specBuf) :: (specURLsAt env file.Name).map (fun specURL => (specURL, specBuf))
    | .error _ => [])

/-- The environment `env` with a compiler that also keeps, in order, the resources
it has accepted: every successful `AddResource` appends the identifier and the
bytes it was given.  Nothing else differs from `env`. -/
def recording {σ S J : Type} (env : Env σ S J) : Env (σ × List (String × Bytes)) S J where
  validateByMediaType := env.validateByMediaType
  specs := env.specs
  specURLs := env.specURLs
  specFS := env.specFS
  NewCompiler := (env.NewCompiler, [])
  AddResource := fun c url r =>
    match env.AddResource c.1 url r with
    | .error err => .error err
    | .ok c1 => .ok (c1, c.2 ++ [(url, r.data)])
  Compile := fun c root => env.Compile c.1 root
  SchemaValidate := env.SchemaValidate
  Decode := env.Decode

/-! ## Concrete values on which the theorems are instantiated -/

/-- A configuration that meets every semantic rule. -/
def exampleModel : Model :=
  ⟨⟨"llama", ""⟩, ⟨"layers", ["sha256:0a"]⟩, ⟨"Transformer", some ⟨["text", "image"], ["text"]⟩⟩⟩

/-- A stand-in for the standard library: the one-byte buffer `[k]` decodes to the
`k`-th of a few configurations, every other buffer is rejected by the decoder. -/
def exampleLib : Stdlib where
  Unmarshal := fun buf =>
    match buf with
    | [0] => .ok exampleModel
    | [1] => .ok ⟨⟨"", ""⟩, ⟨"blobs", []⟩, ⟨"", some ⟨["smell"], ["taste"]⟩⟩⟩
    | [2] => .ok ⟨⟨"llama", ""⟩, ⟨"blobs", ["sha256:0a"]⟩, ⟨"Transformer", some ⟨["text", "image"], ["text"]⟩⟩⟩
    | [3] => .ok ⟨⟨"", "llama"⟩, ⟨"layers", []⟩, ⟨"", some ⟨["smell"], []⟩⟩⟩
    | [4] => .ok ⟨⟨"llama", ""⟩, ⟨"layers", ["sha256:0a"]⟩, ⟨"", some ⟨["text", "smell"], ["taste"]⟩⟩⟩
    | [5] => .ok ⟨⟨"llama", ""⟩, ⟨"layers", ["sha256:0a"]⟩, ⟨"", some ⟨["text"], ["audio", "taste", "touch"]⟩⟩⟩
    | [6] => .ok ⟨⟨"llama", ""⟩, ⟨"layers", ["sha256:0a"]⟩, ⟨"Mamba", some ⟨["text", "image"], ["text"]⟩⟩⟩
    | [7] => .ok ⟨⟨"", ""⟩, ⟨"layers", ["sha256:0a"]⟩, ⟨"", none⟩⟩
    | _ => .error (.new "unexpected end of JSON input")
  printTable := fun _ => true

/-- The media type of the model configuration, as the spec writes it. -/
def exampleConfigType : Validator := "application/vnd.model.config.v1+json"

/-- A media type with a schema and without a semantic check. -/
def exampleOtherType : Validator := "application/vnd.model.other.v1+json"

/-- A stand-in for the package tables, the store and the engine.  The compiler state
is the list of resources added so far, a compiled schema is the identifier it was
compiled from, a decoded value is the bytes of the document; the schema accepts
every document that is not empty. -/
def exampleEnv : Env (List (String × Bytes)) String Bytes where
  validateByMediaType := fun v =>
    if v = exampleConfigType then some (some (validateConfig exampleLib)) else none
  specs := fun v =>
    if v = exampleConfigType then some "https://example.org/schema/config"
    else if v = exampleOtherType then some "https://example.org/schema/other"
    else none
  specURLs := fun name =>
    if name = "config-schema.json" then some ["https://example.org/schema/config"]
    else if name = "other-schema.json" then some ["https://example.org/schema/other"]
    else none
  specFS :=
    ⟨.ok [⟨"config-schema.json", false⟩, ⟨"other-schema.json", false⟩],
      fun name =>
        if name = "config-schema.json" then .ok [123, 125]
        else if name = "other-schema.json" then .ok [123, 125]
        else .error (.new "file does not exist")⟩
  NewCompiler := []
  AddResource := fun c url r => .ok (c ++ [(url, r.data)])
  Compile := fun c root =>
    if c.any (fun res => res.1 = root) then .ok root else .error (.new "schema not found")
  SchemaValidate := fun _ input =>
    if input = [] then some (.new "document is empty") else none
  Decode := fun r =>
    match r.err with
    | some e => .error e
    | none => .ok r.data

/-- A media type that is in neither table of `exampleEnv`. -/
def exampleUnknownType : Validator := "application/vnd.model.unknown.v1+json"

/-- The example environment with a store that ships one more file,
`orphan-schema.json`, for which the alias table has no entry. -/
def exampleOrphanEnv : Env (List (String × Bytes)) String Bytes :=
  { exampleEnv with
    specFS :=
      ⟨.ok [⟨"config-schema.json", false⟩, ⟨"orphan-schema.json", false⟩,
          ⟨"other-schema.json", false⟩],
        fun _ => .ok [123, 125]⟩ }

/-- The example environment with a store whose listing also holds a directory,
`testdata`, for which the alias table has no entry. -/
def exampleDirEnv : Env (List (String × Bytes)) String Bytes :=
  { exampleEnv with
    specFS :=
      ⟨.ok [⟨"testdata", true⟩, ⟨"config-schema.json", false⟩, ⟨"other-schema.json", false⟩],
        exampleEnv.specFS.ReadFile⟩ }

/-- The example environment with a registry whose entry for the configuration media
type is a nil function. -/
def exampleNilEnv : Env (List (String × Bytes)) String Bytes :=
  { exampleEnv with
    validateByMediaType := fun v => if v = exampleConfigType then some none else none }

/-- The example environment with a schema table that names a root schema which no
file of the store provides, so that compilation fails. -/
def exampleMissingRootEnv : Env (List (String × Bytes)) String Bytes :=
  { exampleEnv with specs := fun _ => some "https://example.org/schema/missing" }

/-- A stream that delivers one byte and then fails. -/
def exampleBrokenReader : Reader := ⟨[123], some (.new "connection reset")⟩

/-! ## Lemmas about the parts of `validateConfig` -/

theorem validModalities_iff (m : String) :
    validModalities m = true ↔ m ∈ modalityConstants := by
  simp [validModalities]

theorem checkArchitecture_eq_none (a : String) : checkArchitecture a = none := by
  unfold checkArchitecture
  split
  · split <;> rfl
  · rfl

theorem checkInputTypes_eq_none_iff (lib : Stdlib) (l : List String) :
    checkInputTypes lib l = none ↔ ∀ m ∈ l, m ∈ modalityConstants := by
  induction l with
  | nil => simp [checkInputTypes]
  | cons m rest ih =>
    by_cases hm : validModalities m = true
    · simp [checkInputTypes, hm, ih, (validModalities_iff m).1 hm]
    · have hm2 : m ∉ modalityConstants := fun h => hm ((validModalities_iff m).2 h)
      simp [checkInputTypes, hm, hm2]

theorem checkOutputTypes_eq_none_iff (lib : Stdlib) (l : List String) :
    checkOutputTypes lib l = none ↔ ∀ m ∈ l, m ∈ modalityConstants := by
  induction l with
  | nil => simp [checkOutputTypes]
  | cons m rest ih =>
    by_cases hm : validModalities m = true
    · simp [checkOutputTypes, hm, ih, (validModalities_iff m).1 hm]
    · have hm2 : m ∉ modalityConstants := fun h => hm ((validModalities_iff m).2 h)
      simp [checkOutputTypes, hm, hm2]

theorem checkInputTypes_first (lib : Stdlib) (pre : List String) (m : String)
    (post : List String) (hpre : ∀ x ∈ pre, x ∈ modalityConstants)
    (hm : m ∉ modalityConstants) :
    checkInputTypes lib (pre ++ m :: post)
      = some (.new ("invalid input modality: " ++ Quote lib.printTable m)) := by
  induction pre with
  | nil =>
    have hv : validModalities m = false := by
      cases h : validModalities m
      · rfl
      · exact absurd ((validModalities_iff m).1 h) hm
    simp [checkInputTypes, hv]
  | cons x rest ih =>
    have hx : validModalities x = true := (validModalities_iff x).2 (hpre x (by simp))
    have hrest : ∀ y ∈ rest, y ∈ modalityConstants := fun y hy => hpre y (by simp [hy])
    simp [checkInputTypes, hx, ih hrest]

theorem checkOutputTypes_first (lib : Stdlib) (pre : List String) (m : String)
    (post : List String) (hpre : ∀ x ∈ pre, x ∈ modalityConstants)
    (hm : m ∉ modalityConstants) :
    checkOutputTypes lib (pre ++ m :: post)
      = some (.new ("invalid output modality: " ++ Quote lib.printTable m)) := by
  induction pre with
  | nil =>
    have hv : validModalities m = false := by
      cases h : validModalities m
      · rfl
      · exact absurd ((validModalities_iff m).1 h) hm
    simp [checkOutputTypes, hv]
  | cons x rest ih =>
    have hx : validModalities x = true := (validModalities_iff x).2 (hpre x (by simp))
    have hrest : ∀ y ∈ rest, y ∈ modalityConstants := fun y hy => hpre y (by simp [hy])
    simp [checkOutputTypes, hx, ih hrest]

theorem checkInputTypes_message (lib : Stdlib) (l : List String) (e : GoError)
    (h : checkInputTypes lib l = some e) :
    ∃ q : String, e = .new ("invalid input modality: " ++ q) := by
  induction l with
  | nil => simp [checkInputTypes] at h
  | cons m rest ih =>
    by_cases hm : validModalities m = true
    · simp [checkInputTypes, hm] at h
      exact ih h
    · simp [checkInputTypes, hm] at h
      exact ⟨_, h.symm⟩

theorem checkOutputTypes_message (lib : Stdlib) (l : List String) (e : GoError)
    (h : checkOutputTypes lib l = some e) :
    ∃ q : String, e = .new ("invalid output modality: " ++ q) := by
  induction l with
  | nil => simp [checkOutputTypes] at h
  | cons m rest ih =>
    by_cases hm : validModalities m = true
    · simp [checkOutputTypes, hm] at h
      exact ih h
    · simp [checkOutputTypes, hm] at h
      exact ⟨_, h.symm⟩

/-- The capability stage of `validateConfig`, reached once the first three rules
hold: the function returns what the two modality loops return. -/
theorem validateConfig_capabilities (lib : Stdlib) (buf : Bytes) (mc : Model)
    (caps : ModelCapabilities) (hdec : lib.Unmarshal buf = .ok mc)
    (hname : mc.Descriptor.Name ≠ "" ∨ mc.Descriptor.Family ≠ "")
    (htype : mc.ModelFS.Type' = "layers") (hdiff : mc.ModelFS.DiffIDs ≠ [])
    (hcaps : mc.Config.Capabilities = some caps) :
    validateConfig lib buf =
      match checkInputTypes lib caps.InputTypes with
      | some err => some err
      | none => checkOutputTypes lib caps.OutputTypes := by
  have h1 : ¬ (mc.Descriptor.Name = "" ∧ mc.Descriptor.Family = "") := by
    rintro ⟨a, b⟩
    rcases hname with h | h
    · exact h a
    · exact h b
  have h2 : ¬ mc.ModelFS.DiffIDs.length = 0 := by
    simpa [List.length_eq_zero] using hdiff
  simp only [validateConfig, hdec, h1, htype, h2, checkArchitecture_eq_none, hcaps]
  simp only [ne_eq, not_true_eq_false, if_false]
  cases checkInputTypes lib caps.InputTypes with
  | some e => rfl
  | none =>
    cases checkOutputTypes lib caps.OutputTypes <;> rfl

/-! ## The semantic rules of `validateConfig` -/

/-- C1: for a buffer that deserializes into the configuration `mc`, `validateConfig`
succeeds exactly when the descriptor has a non-empty name or family, the type of
the model file system is `"layers"`, its list of diff ids is not empty, and, if a
capabilities object is present, every input and output type is one of the six
modality constants.  Nothing else of `mc` appears in the condition. -/
theorem validateConfig_accepts_iff (lib : Stdlib) (buf : Bytes) (mc : Model)
    (hdec : lib.Unmarshal buf = .ok mc) :
    validateConfig lib buf = none ↔
      ((mc.Descriptor.Name ≠ "" ∨ mc.Descriptor.Family ≠ "") ∧
        mc.ModelFS.Type' = "layers" ∧
        mc.ModelFS.DiffIDs ≠ [] ∧
        (∀ caps, mc.Config.Capabilities = some caps →
          (∀ m ∈ caps.InputTypes,
            m ∈ ["text", "image", "audio", "video", "embedding", "other"]) ∧
          (∀ m ∈ caps.OutputTypes,
            m ∈ ["text", "image", "audio", "video", "embedding", "other"]))) := by
  by_cases hname : mc.Descriptor.Name = "" ∧ mc.Descriptor.Family = ""
  · have hno : ¬ (mc.Descriptor.Name ≠ "" ∨ mc.Descriptor.Family ≠ "") := by
      rintro (h | h)
      · exact h hname.1
      · exact h hname.2
    have hv : validateConfig lib buf
        = some (.new "model descriptor must have either name or family") := by
      simp [validateConfig, hdec, hname]
    rw [hv]
    constructor
    · intro h
      cases h
    · intro h
      exact absurd h.1 hno
  · have hyes : mc.Descriptor.Name ≠ "" ∨ mc.Descriptor.Family ≠ "" := by
      by_cases hn : mc.Descriptor.Name = ""
      · right
        intro hf
        exact hname ⟨hn, hf⟩
      · exact Or.inl hn
    by_cases htype : mc.ModelFS.Type' = "layers"
    · by_cases hdiff : mc.ModelFS.DiffIDs = []
      · simp [validateConfig, hdec, hname, htype, hdiff]
      · cases hcaps : mc.Config.Capabilities with
        | none =>
          have h2 : ¬ mc.ModelFS.DiffIDs.length = 0 := by
            simpa [List.length_eq_zero] using hdiff
          simp [validateConfig, hdec, hname, htype, h2, hdiff, hyes,
            checkArchitecture_eq_none, hcaps]
        | some caps =>
          rw [validateConfig_capabilities lib buf mc caps hdec hyes htype hdiff hcaps]
          have hin := checkInputTypes_eq_none_iff lib caps.InputTypes
          have hout := checkOutputTypes_eq_none_iff lib caps.OutputTypes
          simp only [modalityConstants] at hin hout
          constructor
          · intro h
            refine ⟨hyes, htype, hdiff, ?_⟩
            intro caps' hc
            cases hc
            cases hci : checkInputTypes lib caps.InputTypes with
            | some e => rw [hci] at h; cases h
            | none =>
              rw [hci] at h
              exact ⟨hin.1 hci, hout.1 h⟩
          · rintro ⟨-, -, -, h⟩
            obtain ⟨h1, h2⟩ := h caps rfl
            rw [hin.2 h1]
            exact hout.2 h2
    · simp [validateConfig, hdec, hname, htype]

/-- Instance of C1: the example configuration decodes and is accepted. -/
theorem validateConfig_accepts_iff_witness :
    exampleLib.Unmarshal [0] = .ok exampleModel ∧ validateConfig exampleLib [0] = none :=
  ⟨rfl, (validateConfig_accepts_iff exampleLib [0] exampleModel rfl).2
    ⟨Or.inl (by decide), rfl, by decide, by
      intro caps h
      cases h
      decide⟩⟩

/-- C2: when the name and the family of the descriptor are both empty,
`validateConfig` fails with "model descriptor must have either name or family",
whatever the rest of the configuration holds; and when one of them is not empty, no
error it returns has that message. -/
theorem validateConfig_descriptor_rule (lib : Stdlib) (buf : Bytes) (mc : Model)
    (hdec : lib.Unmarshal buf = .ok mc) :
    (mc.Descriptor.Name = "" → mc.Descriptor.Family = "" →
      validateConfig lib buf
        = some (.new "model descriptor must have either name or family")) ∧
    (mc.Descriptor.Name ≠ "" ∨ mc.Descriptor.Family ≠ "" →
      ∀ e, validateConfig lib buf = some e →
        e.Error ≠ "model descriptor must have either name or family") := by
  constructor
  · intro hn hf
    simp [validateConfig, hdec, hn, hf]
  · intro hyes e he
    have hname : ¬ (mc.Descriptor.Name = "" ∧ mc.Descriptor.Family = "") := by
      rintro ⟨a, b⟩
      rcases hyes with h | h
      · exact h a
      · exact h b
    by_cases htype : mc.ModelFS.Type' = "layers"
    · by_cases hdiff : mc.ModelFS.DiffIDs = []
      · simp [validateConfig, hdec, hname, htype, hdiff] at he
        subst he
        simp [GoError.Error]
      · cases hcaps : mc.Config.Capabilities with
        | none =>
          have h2 : ¬ mc.ModelFS.DiffIDs.length = 0 := by
            simpa [List.length_eq_zero] using hdiff
          simp [validateConfig, hdec, hname, htype, h2, checkArchitecture_eq_none,
            hcaps] at he
        | some caps =>
          rw [validateConfig_capabilities lib buf mc caps hdec hyes htype hdiff hcaps] at he
          cases hci : checkInputTypes lib caps.InputTypes with
          | some e1 =>
            rw [hci] at he
            cases he
            obtain ⟨q, hq⟩ := checkInputTypes_message lib _ _ hci
            subst hq
            intro h
            have h1 := congrArg String.data h
            simp [GoError.Error] at h1
          | none =>
            rw [hci] at he
            obtain ⟨q, hq⟩ := checkOutputTypes_message lib _ _ he
            subst hq
            intro h
            have h1 := congrArg String.data h
            simp [GoError.Error] at h1
    · simp [validateConfig, hdec, hname, htype] at he
      subst he
      intro h
      have h1 := congrArg String.data h
      simp [GoError.Error] at h1

/-- Instance of C2: a configuration that breaks every rule reports the descriptor
rule; one with a name and the wrong type reports another message. -/
theorem validateConfig_descriptor_rule_witness :
    validateConfig exampleLib [1]
      = some (.new "model descriptor must have either name or family") ∧
    validateConfig exampleLib [2]
      = some (.new "modelfs.type must be 'layers', got \"blobs\"") ∧
    (∀ e, validateConfig exampleLib [2] = some e →
      e.Error ≠ "model descriptor must have either name or family") :=
  ⟨(validateConfig_descriptor_rule exampleLib [1] _ rfl).1 rfl rfl, rfl,
    (validateConfig_descriptor_rule exampleLib [2] _ rfl).2 (Or.inl (by decide))⟩

/-- C3: for a decoded configuration with a non-empty name or family whose file
system type `t` is not `"layers"`, `validateConfig` fails with the message
"modelfs.type must be 'layers', got " followed by `t` quoted, whatever the diff ids
and the capabilities; the empty type gives `got ""`; and an accepted configuration
whose type alone is changed to `"blobs"` gives `got "blobs"`. -/
theorem validateConfig_type_rule (lib : Stdlib) (buf : Bytes) (mc : Model)
    (hdec : lib.Unmarshal buf = .ok mc)
    (hname : mc.Descriptor.Name ≠ "" ∨ mc.Descriptor.Family ≠ "") :
    (mc.ModelFS.Type' ≠ "layers" →
      validateConfig lib buf = some (.new
        ("modelfs.type must be 'layers', got " ++ Quote lib.printTable mc.ModelFS.Type'))) ∧
    (mc.ModelFS.Type' = "" →
      validateConfig lib buf = some (.new "modelfs.type must be 'layers', got \"\"")) ∧
    (validateConfig lib buf = none →
      ∀ buf', lib.Unmarshal buf'
          = .ok ⟨mc.Descriptor, ⟨"blobs", mc.ModelFS.DiffIDs⟩, mc.Config⟩ →
        validateConfig lib buf'
          = some (.new "modelfs.type must be 'layers', got \"blobs\"")) := by
  have hno : ¬ (mc.Descriptor.Name = "" ∧ mc.Descriptor.Family = "") := by
    rintro ⟨a, b⟩
    rcases hname with h | h
    · exact h a
    · exact h b
  refine ⟨?_, ?_, ?_⟩
  · intro htype
    simp [validateConfig, hdec, hno, htype]
  · intro htype
    have hne : mc.ModelFS.Type' ≠ "layers" := by
      rw [htype]
      decide
    have hq : Quote lib.printTable "" = "\"\"" := rfl
    simp only [validateConfig, hdec, hno, hne, ne_eq, not_false_eq_true, if_true, if_false]
    rw [htype, hq]
    rfl
  · intro _ buf' hdec'
    have hq : Quote lib.printTable "blobs" = "\"blobs\"" := rfl
    have hne : ("blobs" : String) ≠ "layers" := by decide
    simp only [validateConfig, hdec', hno, hne, ne_eq, not_false_eq_true, if_true, if_false]
    rw [hq]
    rfl

/-- Instance of C3: the accepted example configuration, with its type changed to
`"blobs"`, is rejected with the message naming `"blobs"`. -/
theorem validateConfig_type_rule_witness :
    validateConfig exampleLib [0] = none ∧
    validateConfig exampleLib [2]
      = some (.new "modelfs.type must be 'layers', got \"blobs\"") :=
  ⟨rfl, (validateConfig_type_rule exampleLib [0] exampleModel rfl
    (Or.inl (by decide))).2.2 rfl [2] rfl⟩

/-- C4: for a decoded configuration with a non-empty name or family, the type
`"layers"` and no diff id, `validateConfig` fails with "modelfs.diffIds must not be
empty", whatever the configuration section holds. -/
theorem validateConfig_diffIds_rule (lib : Stdlib) (buf : Bytes) (mc : Model)
    (hdec : lib.Unmarshal buf = .ok mc)
    (hname : mc.Descriptor.Name ≠ "" ∨ mc.Descriptor.Family ≠ "")
    (htype : mc.ModelFS.Type' = "layers") (hdiff : mc.ModelFS.DiffIDs = []) :
    validateConfig lib buf = some (.new "modelfs.diffIds must not be empty") := by
  have hno : ¬ (mc.Descriptor.Name = "" ∧ mc.Descriptor.Family = "") := by
    rintro ⟨a, b⟩
    rcases hname with h | h
    · exact h a
    · exact h b
  simp [validateConfig, hdec, hno, htype, hdiff]

/-- Instance of C4: no diff id and an unknown input modality; the diff id rule is
the one reported. -/
theorem validateConfig_diffIds_rule_witness :
    validateConfig exampleLib [3] = some (.new "modelfs.diffIds must not be empty") :=
  validateConfig_diffIds_rule exampleLib [3] _ rfl (Or.inr (by decide)) rfl rfl

/-- C5: for a decoded configuration that passes the descriptor, type and diff id
rules and has a capabilities object: if the input types hold a value outside the six
modalities, `validateConfig` fails with "invalid input modality: " and the first
such input value quoted, whatever the output types; if all input types are valid
and the output types hold an invalid value, it fails with "invalid output
modality: " and the first such output value quoted; otherwise it succeeds. -/
theorem validateConfig_modality_rule (lib : Stdlib) (buf : Bytes) (mc : Model)
    (caps : ModelCapabilities) (hdec : lib.Unmarshal buf = .ok mc)
    (hname : mc.Descriptor.Name ≠ "" ∨ mc.Descriptor.Family ≠ "")
    (htype : mc.ModelFS.Type' = "layers") (hdiff : mc.ModelFS.DiffIDs ≠ [])
    (hcaps : mc.Config.Capabilities = some caps) :
    (∀ pre m post, caps.InputTypes = pre ++ m :: post →
      (∀ x ∈ pre, x ∈ ["text", "image", "audio", "video", "embedding", "other"]) →
      m ∉ ["text", "image", "audio", "video", "embedding", "other"] →
      validateConfig lib buf
        = some (.new ("invalid input modality: " ++ Quote lib.printTable m))) ∧
    ((∀ x ∈ caps.InputTypes, x ∈ ["text", "image", "audio", "video", "embedding", "other"]) →
      ∀ pre m post, caps.OutputTypes = pre ++ m :: post →
      (∀ x ∈ pre, x ∈ ["text", "image", "audio", "video", "embedding", "other"]) →
      m ∉ ["text", "image", "audio", "video", "embedding", "other"] →
      validateConfig lib buf
        = some (.new ("invalid output modality: " ++ Quote lib.printTable m))) ∧
    ((∀ x ∈ caps.InputTypes, x ∈ ["text", "image", "audio", "video", "embedding", "other"]) →
      (∀ x ∈ caps.OutputTypes, x ∈ ["text", "image", "audio", "video", "embedding", "other"]) →
      validateConfig lib buf = none) := by
  rw [validateConfig_capabilities lib buf mc caps hdec hname htype hdiff hcaps]
  refine ⟨?_, ?_, ?_⟩
  · intro pre m post hsplit hpre hm
    rw [hsplit, checkInputTypes_first lib pre m post hpre hm]
  · intro hin pre m post hsplit hpre hm
    rw [(checkInputTypes_eq_none_iff lib caps.InputTypes).2 hin, hsplit]
    exact checkOutputTypes_first lib pre m post hpre hm
  · intro hin hout
    rw [(checkInputTypes_eq_none_iff lib caps.InputTypes).2 hin]
    exact (checkOutputTypes_eq_none_iff lib caps.OutputTypes).2 hout

/-- Instance of C5: the input types `["text", "smell"]` (with an invalid output type
as well) fail on `"smell"`; valid input types with the output types
`["audio", "taste", "touch"]` fail on `"taste"`; the example configuration passes. -/
theorem validateConfig_modality_rule_witness :
    validateConfig exampleLib [4] = some (.new "invalid input modality: \"smell\"") ∧
    validateConfig exampleLib [5] = some (.new "invalid output modality: \"taste\"") ∧
    validateConfig exampleLib [0] = none :=
  ⟨(validateConfig_modality_rule exampleLib [4] _ _ rfl (Or.inl (by decide)) rfl
      (by decide) rfl).1 ["text"] "smell" [] rfl (by decide) (by decide),
    (validateConfig_modality_rule exampleLib [5] _ _ rfl (Or.inl (by decide)) rfl
      (by decide) rfl).2.1 (by decide) ["audio"] "taste" ["touch"] rfl (by decide)
      (by decide),
    (validateConfig_modality_rule exampleLib [0] _ _ rfl (Or.inl (by decide)) rfl
      (by decide) rfl).2.2 (by decide) (by decide)⟩

/-- C6: the architecture block yields no error for any value, and two decoded
configurations that differ only in `config.architecture` get the same result from
`validateConfig`, be it success or an error. -/
theorem validateConfig_architecture_irrelevant (lib : Stdlib) (buf buf' : Bytes)
    (mc : Model) (a : String) (hdec : lib.Unmarshal buf = .ok mc)
    (hdec' : lib.Unmarshal buf'
      = .ok ⟨mc.Descriptor, mc.ModelFS, ⟨a, mc.Config.Capabilities⟩⟩) :
    checkArchitecture mc.Config.Architecture = none ∧ checkArchitecture a = none ∧
      validateConfig lib buf = validateConfig lib buf' := by
  refine ⟨checkArchitecture_eq_none _, checkArchitecture_eq_none _, ?_⟩
  simp only [validateConfig, hdec, hdec', checkArchitecture_eq_none]

/-- Instance of C6: the architectures "Transformer" and "Mamba" in the otherwise
same configuration are both accepted. -/
theorem validateConfig_architecture_irrelevant_witness :
    validateConfig exampleLib [0] = validateConfig exampleLib [6] ∧
    validateConfig exampleLib [6] = none :=
  ⟨(validateConfig_architecture_irrelevant exampleLib [0] [6] exampleModel "Mamba"
    rfl rfl).2.2, rfl⟩

/-- C7: for a buffer that does not deserialize, the decoder returning the error
`err`, `validateConfig` returns the error that wraps `err` and whose message is
"config format mismatch: " followed by the message of `err`; the result is fixed by
`err` alone. -/
theorem validateConfig_decode_failure (lib : Stdlib) (buf : Bytes) (err : GoError)
    (hdec : lib.Unmarshal buf = .error err) :
    validateConfig lib buf = some (.wrap "config format mismatch: " err) ∧
    ∃ e, validateConfig lib buf = some e ∧
      e.Error = "config format mismatch: " ++ err.Error ∧ e.Unwrap = some err := by
  have h : validateConfig lib buf = some (.wrap "config format mismatch: " err) := by
    simp only [validateConfig, hdec]
  exact ⟨h, _, h, rfl, rfl⟩

/-- Instance of C7: the empty buffer is rejected by the example decoder. -/
theorem validateConfig_decode_failure_witness :
    (validateConfig exampleLib []).map GoError.Error
      = some "config format mismatch: unexpected end of JSON input" :=
  (validateConfig_decode_failure exampleLib [] (.new "unexpected end of JSON input")
    rfl).1 ▸ rfl

/-! ## The facade `Validate` -/

theorem addAliases_registry {σ S J : Type} (env : Env σ S J)
    (reg : Validator → Option (Option validateFunc)) (name : String) (specBuf : Bytes)
    (urls : List String) (c : σ) :
    addAliases { env with validateByMediaType := reg } name specBuf c urls
      = addAliases env name specBuf c urls := by
  induction urls generalizing c with
  | nil => rfl
  | cons u rest ih =>
    simp only [addAliases]
    cases env.AddResource c u (NewReader specBuf) with
    | error e => rfl
    | ok c1 => exact ih c1

theorem loadSpecFile_registry {σ S J : Type} (env : Env σ S J)
    (reg : Validator → Option (Option validateFunc)) (c : σ) (file : DirEntry) :
    loadSpecFile { env with validateByMediaType := reg } c file
      = loadSpecFile env c file := by
  simp only [loadSpecFile, specURLsAt, addAliases_registry]

theorem loadSpecFiles_registry {σ S J : Type} (env : Env σ S J)
    (reg : Validator → Option (Option validateFunc)) (dir : List DirEntry) (c : σ) :
    loadSpecFiles { env with validateByMediaType := reg } c dir
      = loadSpecFiles env c dir := by
  induction dir generalizing c with
  | nil => rfl
  | cons file rest ih =>
    simp only [loadSpecFiles, loadSpecFile_registry]
    cases loadSpecFile env c file with
    | error e => rfl
    | ok c1 => exact ih c1

/-- The schema stage does not read the registry of semantic checks. -/
theorem validateSchema_registry {σ S J : Type} (env : Env σ S J)
    (reg : Validator → Option (Option validateFunc)) (v : Validator) (src : Reader) :
    validateSchema { env with validateByMediaType := reg } v src
      = validateSchema env v src := by
  simp only [validateSchema, loadSpecFiles_registry]

/-- C8: when the media type has a registered semantic check `fn`, the stream reads
fully to `b` and `fn b` is the error `e`, `Validate` returns `e` itself; this holds
for every environment with that registry, so the schema table, the store, the alias
table and the engine have no part in the result. -/
theorem Validate_semantic_error {σ S J : Type} (env : Env σ S J) (v : Validator)
    (src : Reader) (fn : validateFunc) (b : Bytes) (e : GoError)
    (hreg : env.validateByMediaType v = some (some fn))
    (hread : ReadAll src = (b, none)) (hfn : fn b = some e) :
    Validate env v src = some e ∧
    ∀ (σ' S' J' : Type) (env' : Env σ' S' J'),
      env'.validateByMediaType = env.validateByMediaType → Validate env' v src = some e := by
  have key : ∀ (σ' S' J' : Type) (env' : Env σ' S' J'),
      env'.validateByMediaType v = some (some fn) → Validate env' v src = some e := by
    intro σ' S' J' env' h
    simp only [Validate, h, hread, hfn]
  exact ⟨key σ S J env hreg, fun σ' S' J' env' h => key σ' S' J' env' (by rw [h, hreg])⟩

/-- Instance of C8: a configuration without name and family is rejected by the
semantic check, and `Validate` returns that very error. -/
theorem Validate_semantic_error_witness :
    Validate exampleEnv exampleConfigType (NewReader [1])
      = some (.new "model descriptor must have either name or family") :=
  (Validate_semantic_error exampleEnv exampleConfigType (NewReader [1])
    (validateConfig exampleLib) [1] _ rfl rfl rfl).1

/-- C9: when the media type has no entry in the registry of semantic checks,
`Validate` is `validateSchema` on the stream it was given, and replacing the
registry by any other one without an entry for the media type leaves the result
unchanged. -/
theorem Validate_unregistered {σ S J : Type} (env : Env σ S J) (v : Validator)
    (src : Reader) (hreg : env.validateByMediaType v = none) :
    Validate env v src = validateSchema env v src ∧
    ∀ reg : Validator → Option (Option validateFunc), reg v = none →
      Validate { env with validateByMediaType := reg } v src = Validate env v src := by
  have h1 : Validate env v src = validateSchema env v src := by
    simp only [Validate, hreg]
  refine ⟨h1, ?_⟩
  intro reg hr
  have h2 : Validate { env with validateByMediaType := reg } v src
      = validateSchema { env with validateByMediaType := reg } v src := by
    simp only [Validate, hr]
  rw [h2, h1, validateSchema_registry]

/-- Instance of C9: a media type without a semantic check, on a stream that ends
with a read error: the schema stage gets that stream, and its decoder reports the
error. -/
theorem Validate_unregistered_witness :
    Validate exampleEnv exampleOtherType ⟨[123], some (.new "connection reset")⟩
      = validateSchema exampleEnv exampleOtherType ⟨[123], some (.new "connection reset")⟩ ∧
    Validate exampleEnv exampleOtherType ⟨[123], some (.new "connection reset")⟩
      = some (.wrap "unable to parse json to validate: " (.new "connection reset")) :=
  ⟨(Validate_unregistered exampleEnv exampleOtherType
    ⟨[123], some (.new "connection reset")⟩ rfl).1, rfl⟩

/-- C10: when the media type has a registered semantic check `fn` and the stream
reads fully to `b`: if `fn b` succeeds, `Validate` is `validateSchema` on a new
reader over `b`; hence `Validate` succeeds exactly when `fn b` and `validateSchema`
over `b` both succeed. -/
theorem Validate_both_stages {σ S J : Type} (env : Env σ S J) (v : Validator)
    (src : Reader) (fn : validateFunc) (b : Bytes)
    (hreg : env.validateByMediaType v = some (some fn))
    (hread : ReadAll src = (b, none)) :
    (fn b = none → Validate env v src = validateSchema env v (NewReader b)) ∧
    (Validate env v src = none ↔
      fn b = none ∧ validateSchema env v (NewReader b) = none) := by
  cases hfn : fn b with
  | none =>
    have h : Validate env v src = validateSchema env v (NewReader b) := by
      simp only [Validate, hreg, hread, hfn]
    exact ⟨fun _ => h, by rw [h]; simp⟩
  | some e =>
    have h : Validate env v src = some e := by
      simp only [Validate, hreg, hread, hfn]
    exact ⟨fun h0 => Option.noConfusion h0, by rw [h]; simp⟩

/-- Instance of C10: the example configuration passes the semantic check and the
schema stage, so `Validate` succeeds. -/
theorem Validate_both_stages_witness :
    validateConfig exampleLib [0] = none ∧
    validateSchema exampleEnv exampleConfigType (NewReader [0]) = none ∧
    Validate exampleEnv exampleConfigType (NewReader [0]) = none :=
  ⟨rfl, rfl, (Validate_both_stages exampleEnv exampleConfigType (NewReader [0])
    (validateConfig exampleLib) [0] rfl rfl).2.2 ⟨rfl, rfl⟩⟩

/-! ## Lemmas about messages and about the loading loop -/

theorem BeginsWith_append (p rest : String) : BeginsWith p (p ++ rest) :=
  ⟨rest.data, by simp⟩

theorem BeginsWith_comparable (p q msg : String) (hp : BeginsWith p msg)
    (hq : BeginsWith q msg) : BeginsWith p q ∨ BeginsWith q p := by
  unfold BeginsWith at *
  exact List.prefix_or_prefix_of_prefix hp hq

theorem addAliases_congr {σ S J S' J' : Type} (env : Env σ S J) (env' : Env σ S' J')
    (hadd : env'.AddResource = env.AddResource) (name : String) (specBuf : Bytes)
    (urls : List String) (c : σ) :
    addAliases env' name specBuf c urls = addAliases env name specBuf c urls := by
  induction urls generalizing c with
  | nil => rfl
  | cons u rest ih =>
    simp only [addAliases, hadd]
    cases env.AddResource c u (NewReader specBuf) with
    | error e => rfl
    | ok c1 => exact ih c1

theorem loadSpecFile_congr {σ S J S' J' : Type} (env : Env σ S J) (env' : Env σ S' J')
    (hfs : env'.specFS.ReadFile = env.specFS.ReadFile) (hurls : env'.specURLs = env.specURLs)
    (hadd : env'.AddResource = env.AddResource) (c : σ) (file : DirEntry) :
    loadSpecFile env' c file = loadSpecFile env c file := by
  simp only [loadSpecFile, specURLsAt, hfs, hurls, hadd, addAliases_congr env env' hadd]

theorem loadSpecFiles_congr {σ S J S' J' : Type} (env : Env σ S J) (env' : Env σ S' J')
    (hfs : env'.specFS.ReadFile = env.specFS.ReadFile) (hurls : env'.specURLs = env.specURLs)
    (hadd : env'.AddResource = env.AddResource) (dir : List DirEntry) (c : σ) :
    loadSpecFiles env' c dir = loadSpecFiles env c dir := by
  induction dir generalizing c with
  | nil => rfl
  | cons file rest ih =>
    simp only [loadSpecFiles, loadSpecFile_congr env env' hfs hurls hadd]
    cases loadSpecFile env c file with
    | error e => rfl
    | ok c1 => exact ih c1

theorem loadSpecFiles_append {σ S J : Type} (env : Env σ S J) (pre rest : List DirEntry)
    (c : σ) :
    loadSpecFiles env c (pre ++ rest) =
      match loadSpecFiles env c pre with
      | .error err => .error err
      | .ok c1 => loadSpecFiles env c1 rest := by
  induction pre generalizing c with
  | nil => rfl
  | cons file more ih =>
    simp only [List.cons_append, loadSpecFiles]
    cases loadSpecFile env c file with
    | error e => rfl
    | ok c1 => exact ih c1

theorem loadSpecFile_no_alias {σ S J : Type} (env : Env σ S J) (file : DirEntry)
    (hfile : file.IsDir = false) (hno : specURLsAt env file.Name = []) (c : σ) :
    ∃ e, loadSpecFile env c file = .error e := by
  cases h1 : env.specFS.ReadFile file.Name with
  | error e => simp [loadSpecFile, hfile, h1]
  | ok specBuf =>
    cases h2 : env.AddResource c file.Name (NewReader specBuf) with
    | error e => simp [loadSpecFile, hfile, h1, h2]
    | ok c1 => simp [loadSpecFile, hfile, h1, h2, hno]

theorem loadSpecFiles_no_alias {σ S J : Type} (env : Env σ S J) (dir : List DirEntry)
    (file : DirEntry) (hmem : file ∈ dir) (hfile : file.IsDir = false)
    (hno : specURLsAt env file.Name = []) (c : σ) :
    ∃ e, loadSpecFiles env c dir = .error e := by
  induction dir generalizing c with
  | nil => cases hmem
  | cons first rest ih =>
    simp only [loadSpecFiles]
    rcases List.mem_cons.1 hmem with h | h
    · subst h
      obtain ⟨e, he⟩ := loadSpecFile_no_alias env file hfile hno c
      rw [he]
      exact ⟨e, rfl⟩
    · cases loadSpecFile env c first with
      | error e => exact ⟨e, rfl⟩
      | ok c1 => exact ih h c1

/-! ## The schema stage `validateSchema` -/

/-- C11: for a media type without an entry in the table of schema identifiers,
`validateSchema` fails with "no validator available for " followed by the media
type, for every stream and every store, engine and decoder; so `Validate` on a
media type that is in neither table returns that error, whatever the stream. -/
theorem validateSchema_unknown_type {σ S J : Type} (env : Env σ S J) (v : Validator)
    (src : Reader) (hspec : env.specs v = none) :
    validateSchema env v src = some (.new ("no validator available for " ++ v)) ∧
    (∀ (σ' S' J' : Type) (env' : Env σ' S' J') (src' : Reader), env'.specs v = none →
      validateSchema env' v src' = validateSchema env v src) ∧
    (env.validateByMediaType v = none →
      Validate env v src = some (.new ("no validator available for " ++ v))) := by
  have key : ∀ (σ' S' J' : Type) (env' : Env σ' S' J') (src' : Reader),
      env'.specs v = none →
      validateSchema env' v src' = some (.new ("no validator available for " ++ v)) := by
    intro σ' S' J' env' src' h
    simp only [validateSchema, h]
  refine ⟨key σ S J env src hspec, ?_, ?_⟩
  · intro σ' S' J' env' src' h
    rw [key σ' S' J' env' src' h, key σ S J env src hspec]
  · intro hreg
    simp only [Validate, hreg]
    exact key σ S J env src hspec

/-- Instance of C11: a media type in neither table, on a stream that would fail if
it were read. -/
theorem validateSchema_unknown_type_witness :
    Validate exampleEnv exampleUnknownType exampleBrokenReader
      = some (.new "no validator available for application/vnd.model.unknown.v1+json") :=
  (validateSchema_unknown_type exampleEnv exampleUnknownType exampleBrokenReader rfl).2.2
    rfl

/-- C12, as stated, fails for a media type without a schema identifier: the store
lists `orphan-schema.json`, which has no alias, after a file that loads, the orphan
reads and registers under its file name, and yet the error is "no validator
available for ...", not "spec file has no aliases: orphan-schema.json". -/
theorem validateSchema_no_alias_unknown_type :
    exampleOrphanEnv.specFS.ReadDir
      = .ok [⟨"config-schema.json", false⟩, ⟨"orphan-schema.json", false⟩,
          ⟨"other-schema.json", false⟩] ∧
    specURLsAt exampleOrphanEnv "orphan-schema.json" = [] ∧
    loadSpecFiles exampleOrphanEnv exampleOrphanEnv.NewCompiler
        [⟨"config-schema.json", false⟩]
      = .ok [("config-schema.json", [123, 125]),
          ("https://example.org/schema/config", [123, 125])] ∧
    exampleOrphanEnv.specFS.ReadFile "orphan-schema.json" = .ok [123, 125] ∧
    exampleOrphanEnv.AddResource
        [("config-schema.json", [123, 125]), ("https://example.org/schema/config", [123, 125])]
        "orphan-schema.json" (NewReader [123, 125])
      = .ok [("config-schema.json", [123, 125]),
          ("https://example.org/schema/config", [123, 125]),
          ("orphan-schema.json", [123, 125])] ∧
    validateSchema exampleOrphanEnv exampleUnknownType (NewReader [123, 125])
      = some (.new "no validator available for application/vnd.model.unknown.v1+json") ∧
    validateSchema exampleOrphanEnv exampleUnknownType (NewReader [123, 125])
      ≠ some (.new "spec file has no aliases: orphan-schema.json") :=
  ⟨rfl, rfl, rfl, rfl, rfl, rfl, by decide⟩

/-- C12, amended: when the listing of the store holds an entry that is not a
directory and has no alias, `validateSchema` returns an error for every media type
and every stream, and the result is the same for every compile function, schema
check and decoder (the schema is not compiled); and for a media type that has a
schema identifier, if the entries before that entry load and the entry reads and
registers under its file name, the error is "spec file has no aliases: " followed by
the file name. -/
theorem validateSchema_no_alias {σ S J : Type} (env : Env σ S J) (v : Validator)
    (src : Reader) (dir : List DirEntry) (file : DirEntry)
    (hdir : env.specFS.ReadDir = .ok dir) (hmem : file ∈ dir)
    (hfile : file.IsDir = false) (hno : specURLsAt env file.Name = []) :
    (∃ e, validateSchema env v src = some e) ∧
    (∀ (S' J' : Type) (env' : Env σ S' J') (src' : Reader),
      env'.specs = env.specs → env'.specFS = env.specFS → env'.specURLs = env.specURLs →
      env'.NewCompiler = env.NewCompiler → env'.AddResource = env.AddResource →
      validateSchema env' v src' = validateSchema env v src) ∧
    (∀ (root : String) (pre post : List DirEntry) (c c1 : σ) (specBuf : Bytes),
      env.specs v = some root → dir = pre ++ file :: post →
      loadSpecFiles env env.NewCompiler pre = .ok c →
      env.specFS.ReadFile file.Name = .ok specBuf →
      env.AddResource c file.Name (NewReader specBuf) = .ok c1 →
      validateSchema env v src
        = some (.new ("spec file has no aliases: " ++ file.Name))) := by
  obtain ⟨e, he⟩ := loadSpecFiles_no_alias env dir file hmem hfile hno env.NewCompiler
  have hres : validateSchema env v src
      = match env.specs v with
        | none => some (.new ("no validator available for " ++ v))
        | some _ => some e := by
    simp only [validateSchema, hdir, he]
  refine ⟨?_, ?_, ?_⟩
  · rw [hres]
    cases env.specs v with
    | none => exact ⟨_, rfl⟩
    | some root => exact ⟨_, rfl⟩
  · intro S' J' env' src' hs hfs hurls hnew hadd
    have he' : loadSpecFiles env' env'.NewCompiler dir = .error e := by
      rw [loadSpecFiles_congr env env' (by rw [hfs]) hurls hadd, hnew, he]
    have hdir' : env'.specFS.ReadDir = .ok dir := by rw [hfs, hdir]
    have hres' : validateSchema env' v src'
        = match env.specs v with
          | none => some (.new ("no validator available for " ++ v))
          | some _ => some e := by
      simp only [validateSchema, hdir', he', hs]
    rw [hres, hres']
  · intro root pre post c c1 specBuf hroot hsplit hpre hread hadd
    have hload : loadSpecFiles env env.NewCompiler dir
        = .error (.new ("spec file has no aliases: " ++ file.Name)) := by
      rw [hsplit, loadSpecFiles_append, hpre]
      simp only [loadSpecFiles, loadSpecFile, hfile, hread, hadd, hno]
      rfl
    simp only [validateSchema, hroot, hdir, hload]

/-- Instance of C12, amended: the store with `orphan-schema.json`, validated for the
configuration media type. -/
theorem validateSchema_no_alias_witness :
    validateSchema exampleOrphanEnv exampleConfigType (NewReader [0])
      = some (.new "spec file has no aliases: orphan-schema.json") :=
  (validateSchema_no_alias exampleOrphanEnv exampleConfigType (NewReader [0]) _
    ⟨"orphan-schema.json", false⟩ rfl (by decide) rfl rfl).2.2
    "https://example.org/schema/config" [⟨"config-schema.json", false⟩]
    [⟨"other-schema.json", false⟩] _ _ [123, 125] rfl rfl rfl rfl rfl

/-! ## Where the errors of the two stages come from -/

theorem BeginsWith_clash (p q msg : String) (hp : BeginsWith p msg) (hq : BeginsWith q msg)
    (hpq : ¬ BeginsWith p q) (hqp : ¬ BeginsWith q p) : False := by
  rcases BeginsWith_comparable p q msg hp hq with h | h
  · exact hpq h
  · exact hqp h

theorem BeginsWith_wrap (p : String) (err : GoError) :
    BeginsWith p (GoError.wrap p err).Error := by
  simp only [GoError.Error]
  exact BeginsWith_append p _

theorem BeginsWith_wrap_name (p name tail : String) (err : GoError) :
    BeginsWith p (GoError.wrap (p ++ name ++ tail) err).Error := by
  simp only [GoError.Error, String.append_assoc]
  exact BeginsWith_append p _

theorem addAliases_error {σ S J : Type} (env : Env σ S J) (name : String) (specBuf : Bytes)
    (urls : List String) (c : σ) (e : GoError)
    (h : addAliases env name specBuf c urls = .error e) :
    ∃ url err, e = .wrap ("failed to add spec file " ++ name ++ " as url " ++ url ++ ": ") err := by
  induction urls generalizing c with
  | nil => simp [addAliases] at h
  | cons u rest ih =>
    cases h1 : env.AddResource c u (NewReader specBuf) with
    | error err =>
      simp only [addAliases, h1] at h
      cases h
      exact ⟨u, err, rfl⟩
    | ok c1 =>
      simp only [addAliases, h1] at h
      exact ih c1 h

/-- The errors of the body of the loading loop, with the branch each comes from. -/
theorem loadSpecFile_error {σ S J : Type} (env : Env σ S J) (c : σ) (file : DirEntry)
    (e : GoError) (h : loadSpecFile env c file = .error e) :
    file.IsDir = false ∧
    ((∃ err, e = .wrap ("could not read spec file " ++ file.Name ++ ": ") err) ∨
      (∃ err, e = .wrap ("failed to add spec file " ++ file.Name ++ ": ") err) ∨
      (specURLsAt env file.Name = [] ∧
        e = .new ("spec file has no aliases: " ++ file.Name)) ∨
      (∃ url err,
        e = .wrap ("failed to add spec file " ++ file.Name ++ " as url " ++ url ++ ": ") err)) := by
  cases hd : file.IsDir with
  | true => simp [loadSpecFile, hd] at h
  | false =>
    refine ⟨rfl, ?_⟩
    cases h1 : env.specFS.ReadFile file.Name with
    | error err =>
      simp only [loadSpecFile, hd, h1] at h
      simp at h
      exact Or.inl ⟨err, h.symm⟩
    | ok specBuf =>
      cases h2 : env.AddResource c file.Name (NewReader specBuf) with
      | error err =>
        simp only [loadSpecFile, hd, h1, h2] at h
        simp at h
        exact Or.inr (Or.inl ⟨err, h.symm⟩)
      | ok c1 =>
        by_cases h3 : (specURLsAt env file.Name).length = 0
        · simp only [loadSpecFile, hd, h1, h2, h3] at h
          simp at h
          exact Or.inr (Or.inr (Or.inl ⟨List.length_eq_zero.1 h3, h.symm⟩))
        · simp only [loadSpecFile, hd, h1, h2, h3] at h
          simp at h
          exact Or.inr (Or.inr (Or.inr (addAliases_error env _ _ _ _ _ h)))

/-- The errors of the loading loop: each is the error of one entry of the listing. -/
theorem loadSpecFiles_error {σ S J : Type} (env : Env σ S J) (dir : List DirEntry) (c : σ)
    (e : GoError) (h : loadSpecFiles env c dir = .error e) :
    ∃ file ∈ dir, ∃ c0, loadSpecFile env c0 file = .error e := by
  induction dir generalizing c with
  | nil => simp [loadSpecFiles] at h
  | cons first rest ih =>
    cases h1 : loadSpecFile env c first with
    | error err =>
      simp only [loadSpecFiles, h1] at h
      cases h
      exact ⟨first, by simp, c, h1⟩
    | ok c1 =>
      simp only [loadSpecFiles, h1] at h
      obtain ⟨file, hmem, c0, h0⟩ := ih c1 h
      exact ⟨file, by simp [hmem], c0, h0⟩

/-- The message of an error of the loading loop begins with one of three texts. -/
theorem loadSpecFiles_error_message {σ S J : Type} (env : Env σ S J) (dir : List DirEntry)
    (c : σ) (e : GoError) (h : loadSpecFiles env c dir = .error e) :
    BeginsWith "could not read spec file " e.Error ∨
      BeginsWith "failed to add spec file " e.Error ∨
      BeginsWith "spec file has no aliases: " e.Error := by
  obtain ⟨file, -, c0, h0⟩ := loadSpecFiles_error env dir c e h
  rcases (loadSpecFile_error env c0 file e h0).2 with
    ⟨err, rfl⟩ | ⟨err, rfl⟩ | ⟨-, rfl⟩ | ⟨url, err, rfl⟩
  · exact Or.inl (BeginsWith_wrap_name _ _ _ _)
  · exact Or.inr (Or.inl (BeginsWith_wrap_name _ _ _ _))
  · exact Or.inr (Or.inr (BeginsWith_append _ _))
  · refine Or.inr (Or.inl ?_)
    simp only [GoError.Error, String.append_assoc]
    exact BeginsWith_append _ _

/-- The errors of `validateSchema`, with the stage each comes from. -/
theorem validateSchema_error {σ S J : Type} (env : Env σ S J) (v : Validator)
    (src : Reader) (e : GoError) (h : validateSchema env v src = some e) :
    (env.specs v = none ∧ e = .new ("no validator available for " ++ v)) ∨
    (∃ err, env.specFS.ReadDir = .error err ∧
      e = .wrap "spec embedded directory could not be loaded: " err) ∨
    (∃ dir, env.specFS.ReadDir = .ok dir ∧
      loadSpecFiles env env.NewCompiler dir = .error e) ∨
    (∃ root dir c err, env.specs v = some root ∧ env.specFS.ReadDir = .ok dir ∧
      loadSpecFiles env env.NewCompiler dir = .ok c ∧ env.Compile c root = .error err ∧
      e = .wrap ("failed to compile schema " ++ v ++ ": ") err) ∨
    (∃ root dir c schema err, env.specs v = some root ∧ env.specFS.ReadDir = .ok dir ∧
      loadSpecFiles env env.NewCompiler dir = .ok c ∧ env.Compile c root = .ok schema ∧
      env.Decode src = .error err ∧ e = .wrap "unable to parse json to validate: " err) ∨
    (∃ root dir c schema input err, env.specs v = some root ∧
      env.specFS.ReadDir = .ok dir ∧ loadSpecFiles env env.NewCompiler dir = .ok c ∧
      env.Compile c root = .ok schema ∧ env.Decode src = .ok input ∧
      env.SchemaValidate schema input = some err ∧ e = .wrap "validation failed: " err) := by
  cases h0 : env.specs v with
  | none =>
    simp only [validateSchema, h0] at h
    cases h
    exact Or.inl ⟨rfl, rfl⟩
  | some root =>
    cases h1 : env.specFS.ReadDir with
    | error err =>
      simp only [validateSchema, h0, h1] at h
      cases h
      exact Or.inr (Or.inl ⟨err, rfl, rfl⟩)
    | ok dir =>
      cases h2 : loadSpecFiles env env.NewCompiler dir with
      | error err =>
        simp only [validateSchema, h0, h1, h2] at h
        cases h
        exact Or.inr (Or.inr (Or.inl ⟨dir, rfl, h2⟩))
      | ok c =>
        cases h3 : env.Compile c root with
        | error err =>
          simp only [validateSchema, h0, h1, h2, h3] at h
          cases h
          exact Or.inr (Or.inr (Or.inr (Or.inl ⟨root, dir, c, err, rfl, rfl, h2, h3, rfl⟩)))
        | ok schema =>
          cases h4 : env.Decode src with
          | error err =>
            simp only [validateSchema, h0, h1, h2, h3, h4] at h
            cases h
            exact Or.inr (Or.inr (Or.inr (Or.inr (Or.inl
              ⟨root, dir, c, schema, err, rfl, rfl, h2, h3, rfl, rfl⟩))))
          | ok input =>
            cases h5 : env.SchemaValidate schema input with
            | none => simp [validateSchema, h0, h1, h2, h3, h4, h5] at h
            | some err =>
              simp only [validateSchema, h0, h1, h2, h3, h4, h5] at h
              cases h
              exact Or.inr (Or.inr (Or.inr (Or.inr (Or.inr
                ⟨root, dir, c, schema, input, err, rfl, rfl, h2, h3, rfl, h5, rfl⟩))))

theorem BeginsWith_refl (p : String) : BeginsWith p p := List.prefix_refl _

/-- The message of an error of `validateSchema` begins with one of eight texts. -/
theorem validateSchema_error_message {σ S J : Type} (env : Env σ S J) (v : Validator)
    (src : Reader) (e : GoError) (h : validateSchema env v src = some e) :
    ∃ p ∈ schemaPrefixes, BeginsWith p e.Error := by
  rcases validateSchema_error env v src e h with
    ⟨-, rfl⟩ | ⟨err, -, rfl⟩ | ⟨dir, -, hload⟩ | ⟨root, dir, c, err, -, -, -, -, rfl⟩ |
    ⟨root, dir, c, schema, err, -, -, -, -, -, rfl⟩ |
    ⟨root, dir, c, schema, input, err, -, -, -, -, -, -, rfl⟩
  · exact ⟨"no validator available for ", by decide, BeginsWith_append _ _⟩
  · exact ⟨"spec embedded directory could not be loaded: ", by decide, BeginsWith_wrap _ _⟩
  · rcases loadSpecFiles_error_message env dir _ e hload with h1 | h1 | h1
    · exact ⟨"could not read spec file ", by decide, h1⟩
    · exact ⟨"failed to add spec file ", by decide, h1⟩
    · exact ⟨"spec file has no aliases: ", by decide, h1⟩
  · exact ⟨"failed to compile schema ", by decide, BeginsWith_wrap_name _ _ _ _⟩
  · exact ⟨"unable to parse json to validate: ", by decide, BeginsWith_wrap _ _⟩
  · exact ⟨"validation failed: ", by decide, BeginsWith_wrap _ _⟩

/-- The message of an error of `validateConfig` begins with one of six texts. -/
theorem validateConfig_error_message (lib : Stdlib) (buf : Bytes) (e : GoError)
    (h : validateConfig lib buf = some e) :
    ∃ p ∈ configPrefixes, BeginsWith p e.Error := by
  cases hdec : lib.Unmarshal buf with
  | error err =>
    simp only [validateConfig, hdec] at h
    cases h
    exact ⟨"config format mismatch: ", by decide, BeginsWith_wrap _ _⟩
  | ok mc =>
    by_cases hname : mc.Descriptor.Name = "" ∧ mc.Descriptor.Family = ""
    · simp [validateConfig, hdec, hname] at h
      subst h
      exact ⟨"model descriptor must have either name or family", by decide,
        BeginsWith_refl _⟩
    · have hyes : mc.Descriptor.Name ≠ "" ∨ mc.Descriptor.Family ≠ "" := by
        by_cases hn : mc.Descriptor.Name = ""
        · right
          intro hf
          exact hname ⟨hn, hf⟩
        · exact Or.inl hn
      by_cases htype : mc.ModelFS.Type' = "layers"
      · by_cases hdiff : mc.ModelFS.DiffIDs = []
        · simp [validateConfig, hdec, hname, htype, hdiff] at h
          subst h
          exact ⟨"modelfs.diffIds must not be empty", by decide, BeginsWith_refl _⟩
        · cases hcaps : mc.Config.Capabilities with
          | none =>
            have h2 : ¬ mc.ModelFS.DiffIDs.length = 0 := by
              simpa [List.length_eq_zero] using hdiff
            simp [validateConfig, hdec, hname, htype, h2, checkArchitecture_eq_none,
              hcaps] at h
          | some caps =>
            rw [validateConfig_capabilities lib buf mc caps hdec hyes htype hdiff hcaps] at h
            cases hci : checkInputTypes lib caps.InputTypes with
            | some e1 =>
              rw [hci] at h
              cases h
              obtain ⟨q, rfl⟩ := checkInputTypes_message lib _ _ hci
              exact ⟨"invalid input modality: ", by decide, BeginsWith_append _ _⟩
            | none =>
              rw [hci] at h
              obtain ⟨q, rfl⟩ := checkOutputTypes_message lib _ _ h
              exact ⟨"invalid output modality: ", by decide, BeginsWith_append _ _⟩
      · simp [validateConfig, hdec, hname, htype] at h
        subst h
        exact ⟨"modelfs.type must be 'layers', got ", by decide, BeginsWith_append _ _⟩

/-- The errors of `Validate` when the registered check, if there is one that is not
nil, is `validateConfig`: the stage each error comes from. -/
theorem Validate_error {σ S J : Type} (env : Env σ S J) (lib : Stdlib) (v : Validator)
    (src : Reader) (e : GoError)
    (hreg : env.validateByMediaType v = none ∨ env.validateByMediaType v = some none ∨
      env.validateByMediaType v = some (some (validateConfig lib)))
    (h : Validate env v src = some e) :
    (env.validateByMediaType v = some none ∧
      e = .new ("internal error: mapValidate is nil for " ++ v)) ∨
    (∃ err, env.validateByMediaType v ≠ none ∧
      e = .wrap "failed to read input: " err) ∨
    (∃ buf, validateConfig lib buf = some e) ∨
    (∃ src', validateSchema env v src' = some e) := by
  rcases hreg with hr | hr | hr
  · simp only [Validate, hr] at h
    exact Or.inr (Or.inr (Or.inr ⟨src, h⟩))
  · simp only [Validate, hr] at h
    cases h
    exact Or.inl ⟨hr, rfl⟩
  · cases hread : ReadAll src with
    | mk buf rerr =>
      cases rerr with
      | some err =>
        simp only [Validate, hr, hread] at h
        cases h
        exact Or.inr (Or.inl ⟨err, by simp [hr], rfl⟩)
      | none =>
        cases hfn : validateConfig lib buf with
        | some err =>
          simp only [Validate, hr, hread, hfn] at h
          cases h
          exact Or.inr (Or.inr (Or.inl ⟨buf, hfn⟩))
        | none =>
          simp only [Validate, hr, hread, hfn] at h
          exact Or.inr (Or.inr (Or.inr ⟨_, h⟩))

theorem not_BeginsWith_of_list (prefixes : List String) (q msg : String)
    (hlist : ∀ p ∈ prefixes, ¬ BeginsWith p q ∧ ¬ BeginsWith q p)
    (h : ∃ p ∈ prefixes, BeginsWith p msg) : ¬ BeginsWith q msg := by
  obtain ⟨p, hp, hpm⟩ := h
  intro hq
  exact BeginsWith_clash p q msg hpm hq (hlist p hp).1 (hlist p hp).2

/-- An error of `validateSchema` whose message begins with "spec file has no
aliases: " comes from the alias check of an entry that is not a directory. -/
theorem validateSchema_no_alias_error {σ S J : Type} (env : Env σ S J) (v : Validator)
    (src : Reader) (e : GoError) (h : validateSchema env v src = some e)
    (hmsg : BeginsWith "spec file has no aliases: " e.Error) :
    ∃ dir file, env.specFS.ReadDir = .ok dir ∧ file ∈ dir ∧ file.IsDir = false ∧
      specURLsAt env file.Name = [] ∧
      e = .new ("spec file has no aliases: " ++ file.Name) := by
  rcases validateSchema_error env v src e h with
    ⟨-, rfl⟩ | ⟨err, -, rfl⟩ | ⟨dir, hdir, hload⟩ | ⟨root, dir, c, err, -, -, -, -, rfl⟩ |
    ⟨root, dir, c, schema, err, -, -, -, -, -, rfl⟩ |
    ⟨root, dir, c, schema, input, err, -, -, -, -, -, -, rfl⟩
  · exact absurd hmsg (fun hq => BeginsWith_clash _ _ _ (BeginsWith_append
      "no validator available for " v) hq (by decide) (by decide))
  · exact absurd hmsg (fun hq => BeginsWith_clash _ _ _ (BeginsWith_wrap
      "spec embedded directory could not be loaded: " err) hq (by decide) (by decide))
  · obtain ⟨file, hmem, c0, h0⟩ := loadSpecFiles_error env dir _ e hload
    obtain ⟨hfile, hcases⟩ := loadSpecFile_error env c0 file e h0
    rcases hcases with ⟨err, rfl⟩ | ⟨err, rfl⟩ | ⟨hno, rfl⟩ | ⟨url, err, rfl⟩
    · exact absurd hmsg (fun hq => BeginsWith_clash _ _ _ (BeginsWith_wrap_name
        "could not read spec file " file.Name ": " err) hq (by decide) (by decide))
    · exact absurd hmsg (fun hq => BeginsWith_clash _ _ _ (BeginsWith_wrap_name
        "failed to add spec file " file.Name ": " err) hq (by decide) (by decide))
    · exact ⟨dir, file, hdir, hmem, hfile, hno, rfl⟩
    · have hb : BeginsWith "failed to add spec file " (GoError.wrap
          ("failed to add spec file " ++ file.Name ++ " as url " ++ url ++ ": ") err).Error := by
        simp only [GoError.Error, String.append_assoc]
        exact BeginsWith_append _ _
      exact absurd hmsg (fun hq => BeginsWith_clash _ _ _ hb hq (by decide) (by decide))
  · exact absurd hmsg (fun hq => BeginsWith_clash _ _ _ (BeginsWith_wrap_name
      "failed to compile schema " v ": " err) hq (by decide) (by decide))
  · exact absurd hmsg (fun hq => BeginsWith_clash _ _ _ (BeginsWith_wrap
      "unable to parse json to validate: " err) hq (by decide) (by decide))
  · exact absurd hmsg (fun hq => BeginsWith_clash _ _ _ (BeginsWith_wrap
      "validation failed: " err) hq (by decide) (by decide))

/-! ## Internal errors -/

/-- C13, as stated, fails: a nil registered function gives a message that begins with
"internal error", a file without alias gives "spec file has no aliases: ...", which
does not begin with "internal error"; the two messages have no common beginning at
all, and neither error wraps a cause that could serve as a sentinel. -/
theorem internal_errors_without_common_marker :
    Validate exampleNilEnv exampleConfigType (NewReader [0])
      = some (.new
        "internal error: mapValidate is nil for application/vnd.model.config.v1+json") ∧
    Validate exampleOrphanEnv exampleConfigType (NewReader [0])
      = some (.new "spec file has no aliases: orphan-schema.json") ∧
    ¬ BeginsWith "internal error" "spec file has no aliases: orphan-schema.json" ∧
    (∀ p : String,
      BeginsWith p
        "internal error: mapValidate is nil for application/vnd.model.config.v1+json" →
      BeginsWith p "spec file has no aliases: orphan-schema.json" → p = "") ∧
    (GoError.new
      "internal error: mapValidate is nil for application/vnd.model.config.v1+json").Unwrap
      = none ∧
    (GoError.new "spec file has no aliases: orphan-schema.json").Unwrap = none := by
  refine ⟨rfl, rfl, by decide, ?_, rfl, rfl⟩
  intro p h1 h2
  rcases p with ⟨_ | ⟨ch, t⟩⟩
  · rfl
  · exfalso
    obtain ⟨r1, hr1⟩ := h1
    obtain ⟨r2, hr2⟩ := h2
    have e1 := congrArg List.head? hr1
    have e2 := congrArg List.head? hr2
    simp at e1 e2
    rw [e1] at e2
    exact absurd e2 (by decide)

/-- C13, amended: with `validateConfig` as the registered check, the two internal
violations carry two different fixed beginnings and no cause.  A nil registered
function gives "internal error: mapValidate is nil for " and the media type, and an
error of `Validate` whose message begins with "internal error" is that error; a file
that reads and registers and has no alias gives "spec file has no aliases: " and the
file name, which does not begin with "internal error", and an error of `Validate`
whose message begins with "spec file has no aliases: " comes from the alias check of
a listed file. -/
theorem Validate_internal_errors {σ S J : Type} (env : Env σ S J) (lib : Stdlib)
    (v : Validator) (src : Reader)
    (hreg : env.validateByMediaType v = none ∨ env.validateByMediaType v = some none ∨
      env.validateByMediaType v = some (some (validateConfig lib))) :
    (env.validateByMediaType v = some none →
      Validate env v src = some (.new ("internal error: mapValidate is nil for " ++ v))) ∧
    (∀ e, Validate env v src = some e → BeginsWith "internal error" e.Error →
      env.validateByMediaType v = some none ∧
        e = .new ("internal error: mapValidate is nil for " ++ v)) ∧
    (∀ (c c1 : σ) (file : DirEntry) (specBuf : Bytes), file.IsDir = false →
      env.specFS.ReadFile file.Name = .ok specBuf →
      env.AddResource c file.Name (NewReader specBuf) = .ok c1 →
      specURLsAt env file.Name = [] →
      loadSpecFile env c file = .error (.new ("spec file has no aliases: " ++ file.Name)) ∧
        ¬ BeginsWith "internal error" ("spec file has no aliases: " ++ file.Name)) ∧
    (∀ e, Validate env v src = some e → BeginsWith "spec file has no aliases: " e.Error →
      ∃ dir file, env.specFS.ReadDir = .ok dir ∧ file ∈ dir ∧ file.IsDir = false ∧
        specURLsAt env file.Name = [] ∧
        e = .new ("spec file has no aliases: " ++ file.Name)) ∧
    (∀ e, Validate env v src = some e →
      BeginsWith "internal error" e.Error ∨ BeginsWith "spec file has no aliases: " e.Error →
      e.Unwrap = none) := by
  have part2 : ∀ e, Validate env v src = some e → BeginsWith "internal error" e.Error →
      env.validateByMediaType v = some none ∧
        e = .new ("internal error: mapValidate is nil for " ++ v) := by
    intro e h hmsg
    rcases Validate_error env lib v src e hreg h with
      ⟨hr, he⟩ | ⟨err, -, rfl⟩ | ⟨buf, hb⟩ | ⟨src', hs⟩
    · exact ⟨hr, he⟩
    · exact absurd hmsg (fun hq => BeginsWith_clash _ _ _ (BeginsWith_wrap
        "failed to read input: " err) hq (by decide) (by decide))
    · exact absurd hmsg (not_BeginsWith_of_list configPrefixes _ _ (by decide)
        (validateConfig_error_message lib buf e hb))
    · exact absurd hmsg (not_BeginsWith_of_list schemaPrefixes _ _ (by decide)
        (validateSchema_error_message env v src' e hs))
  have part4 : ∀ e, Validate env v src = some e →
      BeginsWith "spec file has no aliases: " e.Error →
      ∃ dir file, env.specFS.ReadDir = .ok dir ∧ file ∈ dir ∧ file.IsDir = false ∧
        specURLsAt env file.Name = [] ∧
        e = .new ("spec file has no aliases: " ++ file.Name) := by
    intro e h hmsg
    rcases Validate_error env lib v src e hreg h with
      ⟨-, rfl⟩ | ⟨err, -, rfl⟩ | ⟨buf, hb⟩ | ⟨src', hs⟩
    · exact absurd hmsg (fun hq => BeginsWith_clash _ _ _ (BeginsWith_append
        "internal error: mapValidate is nil for " v) hq (by decide) (by decide))
    · exact absurd hmsg (fun hq => BeginsWith_clash _ _ _ (BeginsWith_wrap
        "failed to read input: " err) hq (by decide) (by decide))
    · exact absurd hmsg (not_BeginsWith_of_list configPrefixes _ _ (by decide)
        (validateConfig_error_message lib buf e hb))
    · exact validateSchema_no_alias_error env v src' e hs hmsg
  refine ⟨?_, part2, ?_, part4, ?_⟩
  · intro hr
    simp only [Validate, hr]
  · intro c c1 file specBuf hfile hread hadd hno
    constructor
    · simp only [loadSpecFile, hfile, hread, hadd, hno]
      rfl
    · intro hq
      exact BeginsWith_clash _ _ _ (BeginsWith_append "spec file has no aliases: " file.Name)
        hq (by decide) (by decide)
  · intro e h hmsg
    rcases hmsg with hm | hm
    · rw [(part2 e h hm).2]
      rfl
    · obtain ⟨dir, file, -, -, -, -, he⟩ := part4 e h hm
      rw [he]
      rfl

/-- Instance of C13, amended: the two internal errors on the example environments. -/
theorem Validate_internal_errors_witness :
    Validate exampleNilEnv exampleConfigType (NewReader [0])
      = some (.new
        "internal error: mapValidate is nil for application/vnd.model.config.v1+json") ∧
    (∀ e, Validate exampleOrphanEnv exampleConfigType (NewReader [0]) = some e →
      BeginsWith "spec file has no aliases: " e.Error → e.Unwrap = none) ∧
    Validate exampleOrphanEnv exampleConfigType (NewReader [0])
      = some (.new "spec file has no aliases: orphan-schema.json") :=
  ⟨(Validate_internal_errors exampleNilEnv exampleLib exampleConfigType (NewReader [0])
      (Or.inr (Or.inl rfl))).1 rfl,
    fun e h hm => (Validate_internal_errors exampleOrphanEnv exampleLib exampleConfigType
      (NewReader [0]) (Or.inr (Or.inr rfl))).2.2.2.2 e h (Or.inr hm),
    rfl⟩

/-! ## Repeated validation -/

theorem loadSpecFileSt_eq {σ S J : Type} (eng : Engine σ S J) (c : σ) (file : DirEntry)
    (g : Globals) :
    loadSpecFileSt eng c file g = (loadSpecFile (envOf g eng) c file, g) := by
  have hfs : (envOf g eng).specFS = g.specFS := rfl
  have hadd : (envOf g eng).AddResource = eng.AddResource := rfl
  have hurls : specURLsAt (envOf g eng) file.Name = (g.specURLs file.Name).getD [] := rfl
  cases hd : file.IsDir with
  | true => simp [loadSpecFileSt, loadSpecFile, hd]
  | false =>
    cases h1 : g.specFS.ReadFile file.Name with
    | error err => simp [loadSpecFileSt, loadSpecFile, hd, hfs, h1]
    | ok specBuf =>
      cases h2 : eng.AddResource c file.Name (NewReader specBuf) with
      | error err => simp [loadSpecFileSt, loadSpecFile, hd, hfs, hadd, h1, h2]
      | ok c1 =>
        by_cases h3 : ((g.specURLs file.Name).getD []).length = 0
        · simp [loadSpecFileSt, loadSpecFile, hd, hfs, hadd, hurls, h1, h2, h3]
        · simp [loadSpecFileSt, loadSpecFile, hd, hfs, hadd, hurls, h1, h2, h3]

theorem loadSpecFilesSt_eq {σ S J : Type} (eng : Engine σ S J) (dir : List DirEntry)
    (c : σ) (g : Globals) :
    loadSpecFilesSt eng c dir g = (loadSpecFiles (envOf g eng) c dir, g) := by
  induction dir generalizing c with
  | nil => rfl
  | cons file rest ih =>
    simp only [loadSpecFilesSt, loadSpecFiles, loadSpecFileSt_eq]
    cases loadSpecFile (envOf g eng) c file with
    | error err => rfl
    | ok c1 => exact ih c1

theorem validateSchemaSt_eq {σ S J : Type} (eng : Engine σ S J) (v : Validator)
    (src : Reader) (g : Globals) :
    validateSchemaSt eng v src g = (validateSchema (envOf g eng) v src, g) := by
  have hspecs : (envOf g eng).specs = g.specs := rfl
  have hfs : (envOf g eng).specFS = g.specFS := rfl
  have hnew : (envOf g eng).NewCompiler = eng.NewCompiler := rfl
  have hcomp : (envOf g eng).Compile = eng.Compile := rfl
  have hdec : (envOf g eng).Decode = eng.Decode := rfl
  have hval : (envOf g eng).SchemaValidate = eng.SchemaValidate := rfl
  cases h0 : g.specs v with
  | none => simp only [validateSchemaSt, validateSchema, hspecs, h0]
  | some root =>
    cases h1 : g.specFS.ReadDir with
    | error err => simp only [validateSchemaSt, validateSchema, hspecs, hfs, h0, h1]
    | ok dir =>
      cases h2 : loadSpecFiles (envOf g eng) eng.NewCompiler dir with
      | error err =>
        simp only [validateSchemaSt, validateSchema, hspecs, hfs, hnew, h0, h1,
          loadSpecFilesSt_eq, h2]
      | ok c =>
        cases h3 : eng.Compile c root with
        | error err =>
          simp only [validateSchemaSt, validateSchema, hspecs, hfs, hnew, hcomp, h0, h1,
            loadSpecFilesSt_eq, h2, Option.getD_some, h3]
        | ok schema =>
          cases h4 : eng.Decode src with
          | error err =>
            simp only [validateSchemaSt, validateSchema, hspecs, hfs, hnew, hcomp, hdec,
              h0, h1, loadSpecFilesSt_eq, h2, Option.getD_some, h3, h4]
          | ok input =>
            cases h5 : eng.SchemaValidate schema input with
            | none =>
              simp only [validateSchemaSt, validateSchema, hspecs, hfs, hnew, hcomp, hdec,
                hval, h0, h1, loadSpecFilesSt_eq, h2, Option.getD_some, h3, h4, h5]
            | some err =>
              simp only [validateSchemaSt, validateSchema, hspecs, hfs, hnew, hcomp, hdec,
                hval, h0, h1, loadSpecFilesSt_eq, h2, Option.getD_some, h3, h4, h5]

theorem ValidateSt_eq {σ S J : Type} (eng : Engine σ S J) (v : Validator) (src : Reader)
    (g : Globals) :
    ValidateSt eng v src g = (Validate (envOf g eng) v src, g) := by
  have hreg : (envOf g eng).validateByMediaType = g.validateByMediaType := rfl
  cases h0 : g.validateByMediaType v with
  | none => simp only [ValidateSt, Validate, hreg, h0, validateSchemaSt_eq]
  | some entry =>
    cases entry with
    | none => simp only [ValidateSt, Validate, hreg, h0]
    | some fn =>
      cases h1 : ReadAll src with
      | mk buf rerr =>
        cases rerr with
        | some err => simp only [ValidateSt, Validate, hreg, h0, h1]
        | none =>
          cases h2 : fn buf with
          | some err => simp only [ValidateSt, Validate, hreg, h0, h1, h2]
          | none => simp only [ValidateSt, Validate, hreg, h0, h1, h2, validateSchemaSt_eq]

/-- C14: with the package state passed explicitly through `Validate`, the state a
call ends in is the state it started in, on every path: the registry, the table of
schema identifiers, the alias table and the store are left as they were.  The result
of the call is that of `Validate` on this state; so two calls in succession on the
same bytes, each from a new reader, the second starting in the state the first one
left, end in the starting state and return the same result. -/
theorem Validate_idempotent {σ S J : Type} (eng : Engine σ S J) (g : Globals)
    (v : Validator) (b : Bytes) :
    (∀ src, (ValidateSt eng v src g).2 = g) ∧
    (∀ src, (ValidateSt eng v src g).1 = Validate (envOf g eng) v src) ∧
    (ValidateTwice eng v b g).2 = g ∧
    (ValidateTwice eng v b g).1.1 = (ValidateTwice eng v b g).1.2 ∧
    (ValidateTwice eng v b g).1.1 = Validate (envOf g eng) v (NewReader b) := by
  have htwice : ValidateTwice eng v b g
      = ((Validate (envOf g eng) v (NewReader b), Validate (envOf g eng) v (NewReader b)),
        g) := by
    simp only [ValidateTwice, ValidateSt_eq]
  refine ⟨?_, ?_, ?_, ?_, ?_⟩
  · intro src
    rw [ValidateSt_eq]
  · intro src
    rw [ValidateSt_eq]
  · rw [htwice]
  · rw [htwice]
  · rw [htwice]

/-- Instance of C14: the example configuration validated twice in the example state;
both calls succeed. -/
theorem Validate_idempotent_witness :
    (ValidateTwice exampleEnv.engine exampleConfigType [0] exampleEnv.globals).1
      = (none, none) ∧
    (ValidateTwice exampleEnv.engine exampleConfigType [0] exampleEnv.globals).1.1
      = (ValidateTwice exampleEnv.engine exampleConfigType [0] exampleEnv.globals).1.2 :=
  ⟨rfl, (Validate_idempotent exampleEnv.engine exampleEnv.globals exampleConfigType
    [0]).2.2.2.1⟩

/-! ## Registration of the resources -/

theorem expectedResources_cons {σ S J : Type} (env : Env σ S J) (file : DirEntry)
    (rest : List DirEntry) :
    expectedResources env (file :: rest)
      = expectedResources env [file] ++ expectedResources env rest := by
  cases hd : file.IsDir <;> simp [expectedResources, List.filter, hd]

theorem addAliases_recording {σ S J : Type} (env : Env σ S J) (name : String)
    (specBuf : Bytes) (urls : List String) (c : σ) (log : List (String × Bytes)) :
    addAliases (recording env) name specBuf (c, log) urls =
      match addAliases env name specBuf c urls with
      | .error err => .error err
      | .ok c1 => .ok (c1, log ++ urls.map (fun specURL => (specURL, specBuf))) := by
  induction urls generalizing c log with
  | nil => simp [addAliases]
  | cons u rest ih =>
    cases h1 : env.AddResource c u (NewReader specBuf) with
    | error err => simp [addAliases, recording, h1]
    | ok c1 =>
      have h2 : (recording env).AddResource (c, log) u (NewReader specBuf)
          = .ok (c1, log ++ [(u, specBuf)]) := by
        simp only [recording, h1]
        rfl
      simp only [addAliases, h1, h2, ih]
      cases addAliases env name specBuf c1 rest <;> simp

theorem loadSpecFile_recording {σ S J : Type} (env : Env σ S J) (file : DirEntry) (c : σ)
    (log : List (String × Bytes)) :
    loadSpecFile (recording env) (c, log) file =
      match loadSpecFile env c file with
      | .error err => .error err
      | .ok c1 => .ok (c1, log ++ expectedResources env [file]) := by
  have hurls : specURLsAt (recording env) file.Name = specURLsAt env file.Name := rfl
  have hfs : (recording env).specFS = env.specFS := rfl
  cases hd : file.IsDir with
  | true => simp [loadSpecFile, hd, expectedResources]
  | false =>
    cases h1 : env.specFS.ReadFile file.Name with
    | error err => simp [loadSpecFile, hd, hfs, h1]
    | ok specBuf =>
      cases h2 : env.AddResource c file.Name (NewReader specBuf) with
      | error err =>
        have h3 : (recording env).AddResource (c, log) file.Name (NewReader specBuf)
            = .error err := by
          simp [recording, h2]
        simp [loadSpecFile, hd, hfs, h1, h2, h3]
      | ok c1 =>
        have h3 : (recording env).AddResource (c, log) file.Name (NewReader specBuf)
            = .ok (c1, log ++ [(file.Name, specBuf)]) := by
          simp only [recording, h2]
          rfl
        by_cases h4 : (specURLsAt env file.Name).length = 0
        · simp [loadSpecFile, hd, hfs, h1, h2, h3, hurls, h4]
        · simp only [loadSpecFile, hd, hfs, h1, h2, h3, hurls, h4, addAliases_recording]
          cases addAliases env file.Name specBuf c1 (specURLsAt env file.Name) <;>
            simp [expectedResources, List.filter, hd, h1]

theorem loadSpecFiles_recording {σ S J : Type} (env : Env σ S J) (dir : List DirEntry)
    (c : σ) (log : List (String × Bytes)) :
    loadSpecFiles (recording env) (c, log) dir =
      match loadSpecFiles env c dir with
      | .error err => .error err
      | .ok c1 => .ok (c1, log ++ expectedResources env dir) := by
  induction dir generalizing c log with
  | nil => simp [loadSpecFiles, expectedResources]
  | cons file rest ih =>
    simp only [loadSpecFiles, loadSpecFile_recording]
    cases h1 : loadSpecFile env c file with
    | error err => simp
    | ok c1 =>
      simp only [ih, expectedResources_cons env file rest]
      cases loadSpecFiles env c1 rest <;> simp

/-- The environment that records registrations validates as the plain one does. -/
theorem validateSchema_recording {σ S J : Type} (env : Env σ S J) (v : Validator)
    (src : Reader) : validateSchema (recording env) v src = validateSchema env v src := by
  have hspecs : (recording env).specs = env.specs := rfl
  have hfs : (recording env).specFS = env.specFS := rfl
  have hnew : (recording env).NewCompiler = (env.NewCompiler, []) := rfl
  have hdec : (recording env).Decode = env.Decode := rfl
  have hval : (recording env).SchemaValidate = env.SchemaValidate := rfl
  have hcomp : ∀ c log root, (recording env).Compile (c, log) root = env.Compile c root :=
    fun _ _ _ => rfl
  cases h0 : env.specs v with
  | none => simp only [validateSchema, hspecs, h0]
  | some root =>
    cases h1 : env.specFS.ReadDir with
    | error err => simp only [validateSchema, hspecs, hfs, h0, h1]
    | ok dir =>
      cases h2 : loadSpecFiles env env.NewCompiler dir with
      | error err =>
        simp only [validateSchema, hspecs, hfs, hnew, h0, h1, loadSpecFiles_recording, h2]
      | ok c =>
        simp only [validateSchema, hspecs, hfs, hnew, hdec, hval, h0, h1,
          loadSpecFiles_recording, h2, hcomp]

/-- A file that the loading loop passes has been read and has an alias. -/
theorem loadSpecFile_ok {σ S J : Type} (env : Env σ S J) (file : DirEntry) (c c1 : σ)
    (hfile : file.IsDir = false) (h : loadSpecFile env c file = .ok c1) :
    ∃ specBuf, env.specFS.ReadFile file.Name = .ok specBuf ∧
      specURLsAt env file.Name ≠ [] := by
  cases h1 : env.specFS.ReadFile file.Name with
  | error err => simp [loadSpecFile, hfile, h1] at h
  | ok specBuf =>
    refine ⟨specBuf, rfl, ?_⟩
    intro hno
    cases h2 : env.AddResource c file.Name (NewReader specBuf) with
    | error err => simp [loadSpecFile, hfile, h1, h2] at h
    | ok c2 => simp [loadSpecFile, hfile, h1, h2, hno] at h

theorem loadSpecFiles_ok {σ S J : Type} (env : Env σ S J) (dir : List DirEntry) (c c1 : σ)
    (h : loadSpecFiles env c dir = .ok c1) (file : DirEntry) (hmem : file ∈ dir)
    (hfile : file.IsDir = false) :
    ∃ specBuf, env.specFS.ReadFile file.Name = .ok specBuf ∧
      specURLsAt env file.Name ≠ [] := by
  induction dir generalizing c with
  | nil => cases hmem
  | cons first rest ih =>
    cases h1 : loadSpecFile env c first with
    | error err => simp [loadSpecFiles, h1] at h
    | ok c2 =>
      simp only [loadSpecFiles, h1] at h
      rcases List.mem_cons.1 hmem with hm | hm
      · subst hm
        exact loadSpecFile_ok env file c c2 hfile h1
      · exact ih c2 h hm

/-- C15: when the loading loop of `validateSchema` ends without error, so that the
schema is compiled, the resources accepted by the compiler during the loop are, in
order, for each entry of the listing that is not a directory, its bytes under its
file name and then the same bytes under each of its aliases in the order of the
alias table, and nothing else; every such file has at least one alias and is
registered under its name and under each alias with the same bytes.  The recording
compiler changes neither the loop nor the result of `validateSchema`. -/
theorem loadSpecFiles_registrations {σ S J : Type} (env : Env σ S J) (dir : List DirEntry)
    (c c' : σ) (log log' : List (String × Bytes))
    (h : loadSpecFiles (recording env) (c, log) dir = .ok (c', log')) :
    log' = log ++ expectedResources env dir ∧
    loadSpecFiles env c dir = .ok c' ∧
    (∀ v src, validateSchema (recording env) v src = validateSchema env v src) ∧
    (∀ file ∈ dir, file.IsDir = false →
      ∃ specBuf, env.specFS.ReadFile file.Name = .ok specBuf ∧
        specURLsAt env file.Name ≠ [] ∧ (file.Name, specBuf) ∈ log' ∧
        ∀ url ∈ specURLsAt env file.Name, (url, specBuf) ∈ log') := by
  rw [loadSpecFiles_recording] at h
  cases hl : loadSpecFiles env c dir with
  | error err =>
    rw [hl] at h
    cases h
  | ok c1 =>
    rw [hl] at h
    simp only [Except.ok.injEq, Prod.mk.injEq] at h
    obtain ⟨hc, hlog⟩ := h
    subst hc
    refine ⟨hlog.symm, rfl, validateSchema_recording env, ?_⟩
    intro file hmem hfile
    obtain ⟨specBuf, hread, hurls⟩ := loadSpecFiles_ok env dir c c1 hl file hmem hfile
    have hexp : ∀ x ∈ (file.Name, specBuf) ::
        (specURLsAt env file.Name).map (fun specURL => (specURL, specBuf)),
        x ∈ expectedResources env dir := by
      intro x hx
      simp only [expectedResources, List.mem_flatMap, List.mem_filter]
      refine ⟨file, ⟨hmem, by simp [hfile]⟩, ?_⟩
      simp only [hread]
      exact hx
    refine ⟨specBuf, hread, hurls, ?_, ?_⟩
    · rw [← hlog]
      exact List.mem_append_right _ (hexp _ (by simp))
    · intro url hurl
      rw [← hlog]
      refine List.mem_append_right _ (hexp _ ?_)
      exact List.mem_cons_of_mem _ (List.mem_map.2 ⟨url, hurl, rfl⟩)

/-- Instance of C15: the two files of the example store, each under its name and its
alias. -/
theorem loadSpecFiles_registrations_witness :
    loadSpecFiles (recording exampleEnv) (recording exampleEnv).NewCompiler
        [⟨"config-schema.json", false⟩, ⟨"other-schema.json", false⟩]
      = .ok ([("config-schema.json", [123, 125]),
          ("https://example.org/schema/config", [123, 125]),
          ("other-schema.json", [123, 125]),
          ("https://example.org/schema/other", [123, 125])],
        [("config-schema.json", [123, 125]),
          ("https://example.org/schema/config", [123, 125]),
          ("other-schema.json", [123, 125]),
          ("https://example.org/schema/other", [123, 125])]) ∧
    [("config-schema.json", [123, 125]), ("https://example.org/schema/config", [123, 125]),
        ("other-schema.json", [123, 125]), ("https://example.org/schema/other", [123, 125])]
      = [] ++ expectedResources exampleEnv
          [⟨"config-schema.json", false⟩, ⟨"other-schema.json", false⟩] :=
  ⟨rfl, (loadSpecFiles_registrations exampleEnv
    [⟨"config-schema.json", false⟩, ⟨"other-schema.json", false⟩] [] _ [] _ rfl).1⟩

/-! ## Directories in the listing -/

theorem loadSpecFiles_filter {σ S J : Type} (env : Env σ S J) (dir : List DirEntry) (c : σ) :
    loadSpecFiles env c dir
      = loadSpecFiles env c (dir.filter (fun file => !file.IsDir)) := by
  induction dir generalizing c with
  | nil => rfl
  | cons file rest ih =>
    cases hd : file.IsDir with
    | true =>
      have h1 : loadSpecFile env c file = .ok c := by simp [loadSpecFile, hd]
      simp only [loadSpecFiles, h1, List.filter, hd, Bool.not_true]
      exact ih c
    | false =>
      simp only [loadSpecFiles, List.filter, hd, Bool.not_false]
      cases loadSpecFile env c file with
      | error err => rfl
      | ok c1 => exact ih c1

/-- C16: an entry that is a directory leaves the compiler as it is, whatever the
store, the engine and the alias table hold for its name; so the loading loop, the
resources it registers and the result of `validateSchema` are those of the listing
without its directories. -/
theorem loadSpecFiles_skips_directories {σ S J : Type} (env : Env σ S J)
    (dir : List DirEntry) (v : Validator) (src : Reader) :
    (∀ (c : σ) (name : String), loadSpecFile env c ⟨name, true⟩ = .ok c) ∧
    (∀ c : σ, loadSpecFiles env c dir
      = loadSpecFiles env c (dir.filter (fun file => !file.IsDir))) ∧
    (∀ (c : σ) (log : List (String × Bytes)), loadSpecFiles (recording env) (c, log) dir
      = loadSpecFiles (recording env) (c, log) (dir.filter (fun file => !file.IsDir))) ∧
    (env.specFS.ReadDir = .ok dir →
      validateSchema
          { env with
            specFS := ⟨.ok (dir.filter (fun file => !file.IsDir)), env.specFS.ReadFile⟩ }
          v src
        = validateSchema env v src) := by
  refine ⟨?_, loadSpecFiles_filter env dir, ?_, ?_⟩
  · intro c name
    simp [loadSpecFile]
  · intro c log
    exact loadSpecFiles_filter (recording env) dir (c, log)
  · intro hdir
    have hl : loadSpecFiles
          { env with
            specFS := ⟨.ok (dir.filter (fun file => !file.IsDir)), env.specFS.ReadFile⟩ }
          env.NewCompiler (dir.filter (fun file => !file.IsDir))
        = loadSpecFiles env env.NewCompiler dir := by
      rw [loadSpecFiles_filter env dir env.NewCompiler]
      exact loadSpecFiles_congr env
        { env with
          specFS := ⟨.ok (dir.filter (fun file => !file.IsDir)), env.specFS.ReadFile⟩ }
        rfl rfl rfl _ _
    simp only [validateSchema, hdir, hl]

/-- Instance of C16: the store with the directory `testdata`, which has no alias,
validates the example configuration. -/
theorem loadSpecFiles_skips_directories_witness :
    specURLsAt exampleDirEnv "testdata" = [] ∧
    validateSchema exampleDirEnv exampleConfigType (NewReader [0]) = none ∧
    validateSchema
        { exampleDirEnv with
          specFS := ⟨.ok [⟨"config-schema.json", false⟩, ⟨"other-schema.json", false⟩],
            exampleDirEnv.specFS.ReadFile⟩ }
        exampleConfigType (NewReader [0])
      = validateSchema exampleDirEnv exampleConfigType (NewReader [0]) :=
  ⟨rfl, rfl, (loadSpecFiles_skips_directories exampleDirEnv
    [⟨"testdata", true⟩, ⟨"config-schema.json", false⟩, ⟨"other-schema.json", false⟩]
    exampleConfigType (NewReader [0])).2.2.2 rfl⟩

/-! ## Failures of the facade and the order of the stages -/

/-- C17: when the entry of the media type in the registry is a nil function,
`Validate` fails with "internal error: mapValidate is nil for " followed by the media
type, for every stream, store, schema table and engine. -/
theorem Validate_nil_check {σ S J : Type} (env : Env σ S J) (v : Validator) (src : Reader)
    (hreg : env.validateByMediaType v = some none) :
    Validate env v src = some (.new ("internal error: mapValidate is nil for " ++ v)) ∧
    ∀ (σ' S' J' : Type) (env' : Env σ' S' J') (src' : Reader),
      env'.validateByMediaType v = some none → Validate env' v src' = Validate env v src := by
  have key : ∀ (σ' S' J' : Type) (env' : Env σ' S' J') (src' : Reader),
      env'.validateByMediaType v = some none →
      Validate env' v src' = some (.new ("internal error: mapValidate is nil for " ++ v)) := by
    intro σ' S' J' env' src' h
    simp only [Validate, h]
  refine ⟨key σ S J env src hreg, ?_⟩
  intro σ' S' J' env' src' h
  rw [key σ' S' J' env' src' h, key σ S J env src hreg]

/-- Instance of C17: a nil entry, on a stream that would fail if it were read. -/
theorem Validate_nil_check_witness :
    Validate exampleNilEnv exampleConfigType exampleBrokenReader
      = some (.new
        "internal error: mapValidate is nil for application/vnd.model.config.v1+json") :=
  (Validate_nil_check exampleNilEnv exampleConfigType exampleBrokenReader rfl).1

/-- An error of the loading loop does not begin with the text `q` when `q` is not
comparable with the three texts of the loop. -/
theorem loadSpecFiles_error_not_BeginsWith {σ S J : Type} (env : Env σ S J)
    (dir : List DirEntry) (c : σ) (e : GoError) (q : String)
    (h : loadSpecFiles env c dir = .error e)
    (hq : ∀ p ∈ ["could not read spec file ", "failed to add spec file ",
      "spec file has no aliases: "], ¬ BeginsWith p q ∧ ¬ BeginsWith q p) :
    ¬ BeginsWith q e.Error := by
  apply not_BeginsWith_of_list _ q e.Error hq
  rcases loadSpecFiles_error_message env dir c e h with h1 | h1 | h1
  · exact ⟨_, by simp, h1⟩
  · exact ⟨_, by simp, h1⟩
  · exact ⟨_, by simp, h1⟩

/-- C18: for a media type with a schema identifier, the stages of `validateSchema`
fail in the order loading, compilation, decoding, structural check.  An error of
the loading loop is the result for every input; when loading succeeds and
compilation fails with a cause, the result is "failed to compile schema ", the media
type, ": " and the cause, for every input; an error that begins with "unable to
parse json to validate: " arises only when loading and compilation succeeded and the
decoder failed, and wraps the decoder's error; an error that begins with
"validation failed: " arises only when the input decoded and the schema rejected
it, and wraps the schema's error. -/
theorem validateSchema_stage_order {σ S J : Type} (env : Env σ S J) (v : Validator)
    (src : Reader) (root : String) (hspec : env.specs v = some root) :
    (∀ dir e, env.specFS.ReadDir = .ok dir →
      loadSpecFiles env env.NewCompiler dir = .error e →
      ∀ src', validateSchema env v src' = some e) ∧
    (∀ dir c err, env.specFS.ReadDir = .ok dir →
      loadSpecFiles env env.NewCompiler dir = .ok c → env.Compile c root = .error err →
      ∀ src', validateSchema env v src'
        = some (.wrap ("failed to compile schema " ++ v ++ ": ") err)) ∧
    (∀ e, validateSchema env v src = some e →
      BeginsWith "unable to parse json to validate: " e.Error →
      ∃ dir c schema err, env.specFS.ReadDir = .ok dir ∧
        loadSpecFiles env env.NewCompiler dir = .ok c ∧ env.Compile c root = .ok schema ∧
        env.Decode src = .error err ∧
        e = .wrap "unable to parse json to validate: " err) ∧
    (∀ e, validateSchema env v src = some e → BeginsWith "validation failed: " e.Error →
      ∃ dir c schema input err, env.specFS.ReadDir = .ok dir ∧
        loadSpecFiles env env.NewCompiler dir = .ok c ∧ env.Compile c root = .ok schema ∧
        env.Decode src = .ok input ∧ env.SchemaValidate schema input = some err ∧
        e = .wrap "validation failed: " err) ∧
    (∀ dir c schema err, env.specFS.ReadDir = .ok dir →
      loadSpecFiles env env.NewCompiler dir = .ok c → env.Compile c root = .ok schema →
      env.Decode src = .error err →
      validateSchema env v src = some (.wrap "unable to parse json to validate: " err)) ∧
    (∀ dir c schema input err, env.specFS.ReadDir = .ok dir →
      loadSpecFiles env env.NewCompiler dir = .ok c → env.Compile c root = .ok schema →
      env.Decode src = .ok input → env.SchemaValidate schema input = some err →
      validateSchema env v src = some (.wrap "validation failed: " err)) := by
  refine ⟨?_, ?_, ?_, ?_, ?_, ?_⟩
  · intro dir e hdir hload src'
    simp only [validateSchema, hspec, hdir, hload]
  · intro dir c err hdir hload hcomp src'
    simp only [validateSchema, hspec, hdir, hload, hcomp]
  · intro e h hmsg
    rcases validateSchema_error env v src e h with
      ⟨hnone, -⟩ | ⟨err, -, rfl⟩ | ⟨dir, -, hload⟩ | ⟨root', dir, c, err, -, -, -, -, rfl⟩ |
      ⟨root', dir, c, schema, err, hr, hdir, hload, hcomp, hdec, rfl⟩ |
      ⟨root', dir, c, schema, input, err, -, -, -, -, -, -, rfl⟩
    · rw [hspec] at hnone
      cases hnone
    · exact absurd hmsg (fun hq => BeginsWith_clash _ _ _ (BeginsWith_wrap
        "spec embedded directory could not be loaded: " err) hq (by decide) (by decide))
    · exact absurd hmsg (loadSpecFiles_error_not_BeginsWith env dir _ e _ hload (by decide))
    · exact absurd hmsg (fun hq => BeginsWith_clash _ _ _ (BeginsWith_wrap_name
        "failed to compile schema " v ": " err) hq (by decide) (by decide))
    · rw [hspec] at hr
      cases hr
      exact ⟨dir, c, schema, err, hdir, hload, hcomp, hdec, rfl⟩
    · exact absurd hmsg (fun hq => BeginsWith_clash _ _ _ (BeginsWith_wrap
        "validation failed: " err) hq (by decide) (by decide))
  · intro e h hmsg
    rcases validateSchema_error env v src e h with
      ⟨hnone, -⟩ | ⟨err, -, rfl⟩ | ⟨dir, -, hload⟩ | ⟨root', dir, c, err, -, -, -, -, rfl⟩ |
      ⟨root', dir, c, schema, err, -, -, -, -, -, rfl⟩ |
      ⟨root', dir, c, schema, input, err, hr, hdir, hload, hcomp, hdec, hval, rfl⟩
    · rw [hspec] at hnone
      cases hnone
    · exact absurd hmsg (fun hq => BeginsWith_clash _ _ _ (BeginsWith_wrap
        "spec embedded directory could not be loaded: " err) hq (by decide) (by decide))
    · exact absurd hmsg (loadSpecFiles_error_not_BeginsWith env dir _ e _ hload (by decide))
    · exact absurd hmsg (fun hq => BeginsWith_clash _ _ _ (BeginsWith_wrap_name
        "failed to compile schema " v ": " err) hq (by decide) (by decide))
    · exact absurd hmsg (fun hq => BeginsWith_clash _ _ _ (BeginsWith_wrap
        "unable to parse json to validate: " err) hq (by decide) (by decide))
    · rw [hspec] at hr
      cases hr
      exact ⟨dir, c, schema, input, err, hdir, hload, hcomp, hdec, hval, rfl⟩
  · intro dir c schema err hdir hload hcomp hdec
    simp only [validateSchema, hspec, hdir, hload, hcomp, hdec]
  · intro dir c schema input err hdir hload hcomp hdec hval
    simp only [validateSchema, hspec, hdir, hload, hcomp, hdec, hval]

/-- Instance of C18: a root schema that no file provides fails the compilation on a
valid and on a broken input alike; with the example store a broken input fails the
decoding and an empty document fails the structural check. -/
theorem validateSchema_stage_order_witness :
    validateSchema exampleMissingRootEnv exampleOtherType (NewReader [123, 125])
      = some (.wrap "failed to compile schema application/vnd.model.other.v1+json: "
        (.new "schema not found")) ∧
    validateSchema exampleMissingRootEnv exampleOtherType exampleBrokenReader
      = some (.wrap "failed to compile schema application/vnd.model.other.v1+json: "
        (.new "schema not found")) ∧
    validateSchema exampleEnv exampleOtherType exampleBrokenReader
      = some (.wrap "unable to parse json to validate: " (.new "connection reset")) ∧
    validateSchema exampleEnv exampleOtherType (NewReader [])
      = some (.wrap "validation failed: " (.new "document is empty")) :=
  ⟨(validateSchema_stage_order exampleMissingRootEnv exampleOtherType (NewReader [123, 125])
      "https://example.org/schema/missing" rfl).2.1 _ _ _ rfl rfl rfl (NewReader [123, 125]),
    (validateSchema_stage_order exampleMissingRootEnv exampleOtherType (NewReader [123, 125])
      "https://example.org/schema/missing" rfl).2.1 _ _ _ rfl rfl rfl exampleBrokenReader,
    (validateSchema_stage_order exampleEnv exampleOtherType exampleBrokenReader
      "https://example.org/schema/other" rfl).2.2.2.2.1 _ _ _ _ rfl rfl rfl rfl,
    (validateSchema_stage_order exampleEnv exampleOtherType (NewReader [])
      "https://example.org/schema/other" rfl).2.2.2.2.2 _ _ _ _ _ rfl rfl rfl rfl rfl⟩

/-- No text of `errorPrefixes` begins with another one. -/
theorem errorPrefixes_pairwise :
    ∀ p ∈ errorPrefixes, ∀ q ∈ errorPrefixes, p ≠ q → ¬ BeginsWith p q := by
  decide

/-- C19: with `validateConfig` as the registered check, the message of every error
that `Validate` returns begins with exactly one of the sixteen texts of
`errorPrefixes`, and none of the sixteen begins with another; so the stage and the
rule that failed can be read off the message. -/
theorem Validate_error_beginning {σ S J : Type} (env : Env σ S J) (lib : Stdlib)
    (v : Validator) (src : Reader) (e : GoError)
    (hreg : env.validateByMediaType v = none ∨ env.validateByMediaType v = some none ∨
      env.validateByMediaType v = some (some (validateConfig lib)))
    (h : Validate env v src = some e) :
    (∃ p ∈ errorPrefixes, BeginsWith p e.Error ∧
      ∀ q ∈ errorPrefixes, BeginsWith q e.Error → q = p) ∧
    (∀ p ∈ errorPrefixes, ∀ q ∈ errorPrefixes, p ≠ q → ¬ BeginsWith p q) := by
  have hex : ∃ p ∈ errorPrefixes, BeginsWith p e.Error := by
    rcases Validate_error env lib v src e hreg h with
      ⟨-, rfl⟩ | ⟨err, -, rfl⟩ | ⟨buf, hb⟩ | ⟨src', hs⟩
    · exact ⟨"internal error: mapValidate is nil for ", by decide, BeginsWith_append _ _⟩
    · exact ⟨"failed to read input: ", by decide, BeginsWith_wrap _ _⟩
    · obtain ⟨p, hp, hpm⟩ := validateConfig_error_message lib buf e hb
      have hsub : ∀ p ∈ configPrefixes, p ∈ errorPrefixes := by decide
      exact ⟨p, hsub p hp, hpm⟩
    · obtain ⟨p, hp, hpm⟩ := validateSchema_error_message env v src' e hs
      have hsub : ∀ p ∈ schemaPrefixes, p ∈ errorPrefixes := by decide
      exact ⟨p, hsub p hp, hpm⟩
  obtain ⟨p, hp, hpm⟩ := hex
  refine ⟨⟨p, hp, hpm, ?_⟩, errorPrefixes_pairwise⟩
  intro q hq hqm
  by_contra hne
  rcases BeginsWith_comparable q p e.Error hqm hpm with hc | hc
  · exact errorPrefixes_pairwise q hq p hp hne hc
  · exact errorPrefixes_pairwise p hp q hq (fun hpq => hne hpq.symm) hc

/-- Instance of C19: the error for a wrong file system type begins with the text of
that rule. -/
theorem Validate_error_beginning_witness :
    Validate exampleEnv exampleConfigType (NewReader [2])
      = some (.new "modelfs.type must be 'layers', got \"blobs\"") ∧
    ∃ p ∈ errorPrefixes,
      BeginsWith p (GoError.new "modelfs.type must be 'layers', got \"blobs\"").Error ∧
      ∀ q ∈ errorPrefixes,
        BeginsWith q (GoError.new "modelfs.type must be 'layers', got \"blobs\"").Error →
        q = p :=
  ⟨rfl, (Validate_error_beginning exampleEnv exampleLib exampleConfigType (NewReader [2]) _
    (Or.inr (Or.inr rfl)) rfl).1⟩

/-- C20: when the media type has a registered check that is not nil and reading the
stream fails with the error `err`, `Validate` returns the error that wraps `err`
with the message "failed to read input: " followed by the message of `err`, whatever
the registered function, the store, the tables and the engine are; and for a media
type without an entry in the registry no error of `Validate` has a message that
begins with "failed to read input: ". -/
theorem Validate_read_failure {σ S J : Type} (env : Env σ S J) (v : Validator)
    (src : Reader) :
    (∀ (fn : validateFunc) (b : Bytes) (err : GoError),
      env.validateByMediaType v = some (some fn) → ReadAll src = (b, some err) →
      Validate env v src = some (.wrap "failed to read input: " err) ∧
      (GoError.wrap "failed to read input: " err).Error
        = "failed to read input: " ++ err.Error ∧
      (GoError.wrap "failed to read input: " err).Unwrap = some err ∧
      ∀ (σ' S' J' : Type) (env' : Env σ' S' J') (fn' : validateFunc),
        env'.validateByMediaType v = some (some fn') →
        Validate env' v src = Validate env v src) ∧
    (env.validateByMediaType v = none →
      ∀ e, Validate env v src = some e → ¬ BeginsWith "failed to read input: " e.Error) := by
  constructor
  · intro fn b err hreg hread
    have key : ∀ (σ' S' J' : Type) (env' : Env σ' S' J') (fn' : validateFunc),
        env'.validateByMediaType v = some (some fn') →
        Validate env' v src = some (.wrap "failed to read input: " err) := by
      intro σ' S' J' env' fn' h
      simp only [Validate, h, hread]
    refine ⟨key σ S J env fn hreg, rfl, rfl, ?_⟩
    intro σ' S' J' env' fn' h
    rw [key σ' S' J' env' fn' h, key σ S J env fn hreg]
  · intro hreg e h
    have hs : validateSchema env v src = some e := by
      simpa only [Validate, hreg] using h
    exact not_BeginsWith_of_list schemaPrefixes _ _ (by decide)
      (validateSchema_error_message env v src e hs)

/-- Instance of C20: the broken stream under the configuration media type, which has
a check, and under a media type that has none. -/
theorem Validate_read_failure_witness :
    Validate exampleEnv exampleConfigType exampleBrokenReader
      = some (.wrap "failed to read input: " (.new "connection reset")) ∧
    Validate exampleEnv exampleOtherType exampleBrokenReader
      = some (.wrap "unable to parse json to validate: " (.new "connection reset")) ∧
    (∀ e, Validate exampleEnv exampleOtherType exampleBrokenReader = some e →
      ¬ BeginsWith "failed to read input: " e.Error) :=
  ⟨((Validate_read_failure exampleEnv exampleConfigType exampleBrokenReader).1
      (validateConfig exampleLib) [123] _ rfl rfl).1,
    rfl,
    (Validate_read_failure exampleEnv exampleOtherType exampleBrokenReader).2 rfl⟩

end Schema
